import Mathlib

/-!
Verification of the aggregation-pipeline module `src/web/queries_supabase.py`
(read-only NFL statistics queries: player season list, per-player game log,
weekly receiving/rushing dashboards, season receiving/rushing summaries).

Modelling conventions (shallow embedding):
* Rows fetched from the remote tabular store are loosely-typed mappings in the
  source; the rows of each table are embedded as a structure whose cells have type
  `Value` (null, bool, int, float or string), matching the defensive coercion
  the source applies to every cell.
* Python floats are embedded as exact normalized fractions (`PyFloat`); the
  special values nan/inf are outside the model.  Normalization uses a
  fuel-based structural gcd so that all arithmetic reduces in the kernel.
* Python `int(...)`/`float(...)` on strings are embedded for ASCII input:
  surrounding ASCII whitespace, an optional sign, decimal digits, and for
  floats an optional fractional part and exponent.  Underscore separators and
  non-ASCII digits are not modelled.
* `str.lower`/`str.upper`/`str.strip` are embedded for ASCII input.
* A Python `try/except` returning `None` is embedded as an `Option`-valued
  total function ("never raises" holds by totality).
* The table-query collaborator `sb.select` is embedded as filtering an
  in-memory list of rows in table order, then taking the row cap; PostgREST
  `eq.<n>` / `in.(..)` filters on integer columns match cells equal to the
  integer value, `eq.false` matches boolean cells equal to false, and string
  equality filters match string cells exactly.
* Text columns of the store (names, abbreviations, positions) hold strings or
  null; `(cell or "")` / `(cell or None)` are embedded under that typing.
* The headshot resolver reads a static CSV that is not part of this
  repository; it is embedded as an opaque field `photo` of the database
  environment (the claims do not constrain it).
-/

/-- Fuel-based Euclidean gcd; `gcdF (a+1) a b` computes `gcd a b` and reduces
in the kernel (the first argument strictly decreases each step). -/
def gcdF : Nat → Nat → Nat → Nat
  | 0, _, b => b
  | fuel+1, a, b => if a = 0 then b else gcdF fuel (b % a) a

/-- Exact fraction standing in for a Python float.  Always kept normalized
(positive denominator, gcd 1) by the smart constructor `PyFloat.make`, so
that derived structural equality coincides with numeric equality. -/
structure PyFloat where
  num : Int
  den : Int
  deriving DecidableEq, Repr

/-- Normalizing constructor: `PyFloat.make n d` is the fraction n/d (and 0/1
when d = 0, a case never reached by the pipelines, which guard divisions). -/
def PyFloat.make (n d : Int) : PyFloat :=
  if d = 0 then ⟨0, 1⟩
  else
    let n2 : Int := if d < 0 then -n else n
    let d2 : Int := if d < 0 then -d else d
    let g : Int := Int.ofNat (gcdF (n2.natAbs + 1) n2.natAbs d2.natAbs)
    ⟨n2 / g, d2 / g⟩

/-- Truncation toward zero, the behaviour of Python `int()` on a float. -/
def PyFloat.trunc (q : PyFloat) : Int := q.num.tdiv q.den

/-- Loosely-typed cell of a fetched row (JSON value). -/
inductive Value where
  | vnull
  | vbool (b : Bool)
  | vint (n : Int)
  | vfloat (q : PyFloat)
  | vstr (s : String)
  deriving DecidableEq, Repr

/-- Python truthiness of a cell (`bool(x)`). -/
def Value.truthy : Value → Bool
  | .vnull => false
  | .vbool b => b
  | .vint n => n ≠ 0
  | .vfloat q => q.num ≠ 0
  | .vstr s => s ≠ ""

/-- ASCII whitespace stripped by Python `str.strip()` / `int()` / `float()`. -/
def isPySpace (c : Char) : Bool :=
  c = ' ' || c = '\t' || c = '\n' || c = '\r' || c = '\x0b' || c = '\x0c'

/-- Python `str.strip()` on a character list. -/
def pyStripL (cs : List Char) : List Char :=
  ((cs.dropWhile isPySpace).reverse.dropWhile isPySpace).reverse

/-- Python `str.strip()`. -/
def pyStrip (s : String) : String := (pyStripL s.toList).asString

/-- Decimal digit value. -/
def digitVal (c : Char) : Option Nat :=
  if '0' ≤ c ∧ c ≤ '9' then some (c.toNat - '0'.toNat) else none

/-- Value of a nonempty all-digit character list; `none` otherwise. -/
def digitsToNat (cs : List Char) : Option Nat :=
  if cs.isEmpty then none
  else cs.foldl (fun acc c => acc.bind fun n => (digitVal c).map fun d => n * 10 + d) (some 0)

/-- Python `int(s)` on a string: optional surrounding whitespace, optional
sign, decimal digits; anything else fails. -/
def parseIntStr (s : String) : Option Int :=
  match pyStripL s.toList with
  | '+' :: rest => (digitsToNat rest).map Int.ofNat
  | '-' :: rest => (digitsToNat rest).map fun n => -(Int.ofNat n)
  | cs => (digitsToNat cs).map Int.ofNat

/-- Mantissa of a Python float literal: `digits`, `digits.`, `digits.digits`
or `.digits` (at least one digit overall). -/
def parseMantissa (cs : List Char) : Option PyFloat :=
  let ip := cs.takeWhile fun c => (digitVal c).isSome
  let rest := cs.dropWhile fun c => (digitVal c).isSome
  match rest with
  | [] => if ip.isEmpty then none else (digitsToNat ip).map fun n => PyFloat.make n 1
  | '.' :: frac =>
    if frac.all (fun c => (digitVal c).isSome) ∧ ¬ (ip.isEmpty ∧ frac.isEmpty) then
      let ipv : Int := Int.ofNat ((digitsToNat ip).getD 0)
      let frv : Int := Int.ofNat ((digitsToNat frac).getD 0)
      some (PyFloat.make (ipv * Int.ofNat (10 ^ frac.length) + frv) (Int.ofNat (10 ^ frac.length)))
    else none
  | _ => none

/-- Signed decimal exponent of a float literal. -/
def parseExpInt (cs : List Char) : Option Int :=
  match cs with
  | '+' :: rest => (digitsToNat rest).map Int.ofNat
  | '-' :: rest => (digitsToNat rest).map fun n => -(Int.ofNat n)
  | _ => (digitsToNat cs).map Int.ofNat

/-- Scale a fraction by a power of ten (float exponent application). -/
def PyFloat.scale10 (q : PyFloat) (e : Int) : PyFloat :=
  if 0 ≤ e then PyFloat.make (q.num * Int.ofNat (10 ^ e.toNat)) q.den
  else PyFloat.make q.num (q.den * Int.ofNat (10 ^ (-e).toNat))

/-- Split a float literal at the first exponent marker `e`/`E`. -/
def splitAtExpMark (cs : List Char) : List Char × Option (List Char) :=
  match cs with
  | [] => ([], none)
  | c :: rest =>
    if c = 'e' ∨ c = 'E' then ([], some rest)
    else
      let (m, e) := splitAtExpMark rest
      (c :: m, e)

/-- Python `float(s)` on a string (nan/inf not modelled). -/
def parseFloatStr (s : String) : Option PyFloat :=
  let cs := pyStripL s.toList
  let signed : (List Char → Option PyFloat) → Option PyFloat := fun k =>
    match cs with
    | '+' :: rest => k rest
    | '-' :: rest => (k rest).map fun q => PyFloat.make (-q.num) q.den
    | _ => k cs
  signed fun body =>
    match splitAtExpMark body with
    | (mant, none) => parseMantissa mant
    | (mant, some ex) => (parseMantissa mant).bind fun m => (parseExpInt ex).map m.scale10

/-- Python `int(x)` on a cell (raises on null and on unparsable strings,
embedded as `none`). -/
def pyIntOfValue : Value → Option Int
  | .vnull => none
  | .vbool b => some (if b then 1 else 0)
  | .vint n => some n
  | .vfloat q => some q.trunc
  | .vstr s => parseIntStr s

/-- Python `float(x)` on a cell. -/
def pyFloatOfValue : Value → Option PyFloat
  | .vnull => none
  | .vbool b => some (PyFloat.make (if b then 1 else 0) 1)
  | .vint n => some (PyFloat.make n 1)
  | .vfloat q => some q
  | .vstr s => parseFloatStr s

/-- Source `_safe_int`: None and "" map to null, then `int(x)` with failures
mapped to null; total, hence never raises. -/
def _safe_int (x : Value) : Option Int :=
  if x = .vnull ∨ x = .vstr "" then none else pyIntOfValue x

/-- Source `_safe_float`: None and "" map to null, then `float(x)` with
failures mapped to null; total, hence never raises. -/
def _safe_float (x : Value) : Option PyFloat :=
  if x = .vnull ∨ x = .vstr "" then none else pyFloatOfValue x

/-- Python `x or d` for an optional int `x` (0 is falsy and also yields d). -/
def pyOrInt (x : Option Int) (d : Int) : Int :=
  match x with
  | none => d
  | some n => if n = 0 then d else n

/-- Python `(cell or "")` on a text cell (text columns hold strings or null). -/
def textOr (v : Value) : String :=
  match v with
  | .vstr s => s
  | _ => ""

/-- Python `(cell or None)` on a text cell (empty string becomes null). -/
def textOrNone (v : Value) : Option String :=
  match v with
  | .vstr s => if s = "" then none else some s
  | _ => none

/-- ASCII `str.upper()`. -/
def asciiUpper (s : String) : String := (s.toList.map Char.toUpper).asString

/-- ASCII `str.lower()`. -/
def asciiLower (s : String) : String := (s.toList.map Char.toLower).asString

/-- Characters kept by the `[^a-z0-9 ]+` removal in `_merge_name`. -/
def mergeAllowed (c : Char) : Bool :=
  ('a' ≤ c && c ≤ 'z') || ('0' ≤ c && c ≤ '9') || c = ' '

/-- Collapse maximal whitespace runs to a single space (`re.sub(r"\s+", " ")`);
the flag records whether the previous character was whitespace. -/
def collapseGo : Bool → List Char → List Char
  | _, [] => []
  | prevWs, c :: rest =>
    if isPySpace c then
      if prevWs then collapseGo true rest
      else ' ' :: collapseGo true rest
    else c :: collapseGo false rest

/-- Whitespace-run collapsing on a character list. -/
def collapseWsL (l : List Char) : List Char := collapseGo false l

/-- Source `_merge_name`: lower-case, drop characters outside `[a-z0-9 ]`,
strip, collapse internal whitespace. -/
def _merge_name (name : String) : String :=
  (collapseWsL (pyStripL ((name.toList.map Char.toLower).filter mergeAllowed))).asString

/-- Stable insertion: `x` is placed after every already-placed `y` with
`le y x` (Python `list.sort` tie behaviour). -/
def insertLe {α : Type} (le : α → α → Bool) (x : α) : List α → List α
  | [] => [x]
  | y :: ys => if le y x then y :: insertLe le x ys else x :: y :: ys

/-- Stable sort by `le` (Python `list.sort(key=..., reverse=...)` once `le`
encodes the keyed, possibly reversed comparison). -/
def sortLe {α : Type} (le : α → α → Bool) (l : List α) : List α :=
  l.foldl (fun acc x => insertLe le x acc) []

/-- Python dict lookup where the dict was built by inserting the listed pairs
in order (a later binding of the same key overwrites an earlier one). -/
def dictGet {α : Type} (l : List (Int × α)) (k : Int) : Option α :=
  match l with
  | [] => none
  | (k2, v) :: rest =>
    match dictGet rest k with
    | some r => some r
    | none => if k2 = k then some v else none

/-- PostgREST membership filter built by `_in_list` on an integer column. -/
def inIntList (v : Value) (ids : List Int) : Bool := ids.any fun n => v == .vint n

/-- Python `sorted(set_of_ints)`: distinct values in ascending order. -/
def uniqSortedAsc (l : List Int) : List Int :=
  sortLe (fun a b => decide (a ≤ b)) l.dedup

/-- Row of `nfl_teams`. -/
structure TeamRow where
  id : Value
  abbreviation : Value
  deriving DecidableEq, Repr

/-- Row of `nfl_players`. -/
structure PlayerRow where
  id : Value
  first_name : Value
  last_name : Value
  position_abbreviation : Value
  team_id : Value
  deriving DecidableEq, Repr

/-- Row of `nfl_games`. -/
structure GameRow where
  id : Value
  home_team_id : Value
  visitor_team_id : Value
  postseason : Value
  deriving DecidableEq, Repr

/-- Row of `nfl_player_season_stats`. -/
structure SeasonStatRow where
  player_id : Value
  season : Value
  postseason : Value
  games_played : Value
  passing_attempts : Value
  passing_completions : Value
  passing_yards : Value
  passing_touchdowns : Value
  passing_interceptions : Value
  qbr : Value
  qb_rating : Value
  rushing_attempts : Value
  rushing_yards : Value
  rushing_touchdowns : Value
  receptions : Value
  receiving_yards : Value
  receiving_touchdowns : Value
  receiving_targets : Value
  deriving DecidableEq, Repr

/-- Row of `nfl_player_game_stats`. -/
structure GameStatRow where
  player_id : Value
  game_id : Value
  season : Value
  week : Value
  postseason : Value
  team_id : Value
  rushing_attempts : Value
  rushing_yards : Value
  rushing_touchdowns : Value
  receptions : Value
  receiving_yards : Value
  receiving_touchdowns : Value
  receiving_targets : Value
  passing_attempts : Value
  passing_completions : Value
  passing_yards : Value
  passing_touchdowns : Value
  passing_interceptions : Value
  qbr : Value
  qb_rating : Value
  deriving DecidableEq, Repr

/-- The backing store and the static headshot mapping, as seen by one
request: immutable in-memory tables plus the opaque headshot resolver
(`player_photo_url_from_name_team`, whose CSV is not part of this module). -/
structure Db where
  teams : List TeamRow
  players : List PlayerRow
  games : List GameRow
  seasonStats : List SeasonStatRow
  gameStats : List GameStatRow
  photo : String → Option String → Option String

/-- Source `_team_map`: batch-fetch teams by id, build id → upper-cased
abbreviation (later rows overwrite earlier ones, rows whose id fails `int()`
are skipped); an empty id list short-circuits to the empty mapping. -/
def _team_map (db : Db) (team_ids : List Int) : List (Int × String) :=
  if team_ids.isEmpty then []
  else
    ((db.teams.filter fun t => inIntList t.id team_ids).take team_ids.length).filterMap
      fun t => (pyIntOfValue t.id).map fun i => (i, asciiUpper (textOr t.abbreviation))

/-- Source `_has_any_stats`: at least one of the five offensive counters
coerces to a value `v` with `v` truthy and `v > 0`. -/
def _has_any_stats (row : SeasonStatRow) : Bool :=
  [row.passing_attempts, row.passing_completions, row.rushing_attempts,
    row.receptions, row.receiving_targets].any fun cell =>
    match _safe_int cell with
    | some v => decide (v ≠ 0) && decide (0 < v)
    | none => false

/-- Shared inline step of `get_players_list` and both dashboards: resolve a
supplied team abbreviation (falsy values skipped) to the id of the first
matching `nfl_teams` row, best-effort. -/
def resolveTeamId (db : Db) (team : Option String) : Option Int :=
  match team with
  | none => none
  | some t =>
    if t = "" then none
    else
      match (db.teams.filter fun row => row.abbreviation == Value.vstr t).take 1 with
      | [] => none
      | row :: _ => _safe_int row.id

/-- Fetch stage of the season list: season equality and regular-season
filters, row cap 8000. -/
def listStatsFetch (db : Db) (season : Int) : List SeasonStatRow :=
  (db.seasonStats.filter fun s =>
    s.season == Value.vint season && s.postseason == Value.vbool false).take 8000

/-- Season-list stat rows kept by the `_has_any_stats` filter. -/
def listStatsRows (db : Db) (season : Int) : List SeasonStatRow :=
  (listStatsFetch db season).filter _has_any_stats

/-- Player ids referenced by the kept stat rows (coercion failures dropped). -/
def listPlayerIds (db : Db) (season : Int) : List Int :=
  (listStatsRows db season).filterMap fun r => _safe_int r.player_id

/-- Join stage of the season list: batch-fetch the referenced players. -/
def listPlayers (db : Db) (season : Int) : List PlayerRow :=
  (db.players.filter fun p => inIntList p.id (listPlayerIds db season)).take
    (listPlayerIds db season).length

/-- Source `player_map`: id → player record (ids failing coercion skipped). -/
def listPlayerMap (db : Db) (season : Int) : List (Int × PlayerRow) :=
  (listPlayers db season).filterMap fun p => (_safe_int p.id).map fun pid => (pid, p)

/-- Distinct current-team ids of the fetched players (source line 225; on the
integer-typed store the raw `int(...)` there cannot raise, and the embedding
skips failures). -/
def listTeamIds (db : Db) (season : Int) : List Int :=
  uniqSortedAsc ((listPlayers db season).filterMap fun p =>
    if p.team_id = Value.vnull ∨ p.team_id = Value.vstr "" then none
    else pyIntOfValue p.team_id)

/-- Output row of the player season list. -/
structure PlayerListRow where
  player_id : String
  player_name : String
  team : Option String
  position : Option String
  season : Int
  games : Int
  targets : Int
  receptions : Int
  receivingYards : Int
  receivingTouchdowns : Int
  avgYardsPerCatch : PyFloat
  rushAttempts : Int
  rushingYards : Int
  rushingTouchdowns : Int
  avgYardsPerRush : PyFloat
  passingAttempts : Int
  passingCompletions : Int
  passingYards : Int
  passingTouchdowns : Int
  passingInterceptions : Int
  qbRating : Option PyFloat
  qbr : Option PyFloat
  photoUrl : Option String
  deriving DecidableEq, Repr

/-- Derive stage of the season list, one stat row at a time: drop the row
when the player id fails coercion or misses the player map, or when the
position / team filters reject it; otherwise build the display row. -/
def listRowOf (db : Db) (season : Int) (posFilter : String) (teamId : Option Int)
    (pmap : List (Int × PlayerRow)) (tmap : List (Int × String)) (s : SeasonStatRow) :
    Option PlayerListRow :=
  match _safe_int s.player_id with
  | none => none
  | some pid =>
    match dictGet pmap pid with
    | none => none
    | some p =>
      let pos := asciiUpper (pyStrip (textOr p.position_abbreviation))
      if posFilter ≠ "" ∧ pos ≠ posFilter then none
      else
        let tid := _safe_int p.team_id
        if teamId ≠ none ∧ tid ≠ teamId then none
        else
          let first := pyStrip (textOr p.first_name)
          let last := pyStrip (textOr p.last_name)
          let name0 := pyStrip (first ++ " " ++ last)
          let name := if name0 = "" then toString pid else name0
          let team_abbr := tid.bind fun t => dictGet tmap t
          let games := pyOrInt (_safe_int s.games_played) 0
          let targets := pyOrInt (_safe_int s.receiving_targets) 0
          let rec0 := pyOrInt (_safe_int s.receptions) 0
          let rec_yards := pyOrInt (_safe_int s.receiving_yards) 0
          let rec_tds := pyOrInt (_safe_int s.receiving_touchdowns) 0
          let rush_att := pyOrInt (_safe_int s.rushing_attempts) 0
          let rush_yards := pyOrInt (_safe_int s.rushing_yards) 0
          let rush_tds := pyOrInt (_safe_int s.rushing_touchdowns) 0
          let pass_att := pyOrInt (_safe_int s.passing_attempts) 0
          let pass_cmp := pyOrInt (_safe_int s.passing_completions) 0
          let pass_yds := pyOrInt (_safe_int s.passing_yards) 0
          let pass_tds := pyOrInt (_safe_int s.passing_touchdowns) 0
          let pass_int := pyOrInt (_safe_int s.passing_interceptions) 0
          let avg_ypc := if rec0 ≠ 0 then PyFloat.make rec_yards rec0 else PyFloat.make 0 1
          let avg_ypr := if rush_att ≠ 0 then PyFloat.make rush_yards rush_att else PyFloat.make 0 1
          some
            { player_id := toString pid
              player_name := name
              team := team_abbr
              position := if pos = "" then none else some pos
              season := season
              games := games
              targets := targets
              receptions := rec0
              receivingYards := rec_yards
              receivingTouchdowns := rec_tds
              avgYardsPerCatch := avg_ypc
              rushAttempts := rush_att
              rushingYards := rush_yards
              rushingTouchdowns := rush_tds
              avgYardsPerRush := avg_ypr
              passingAttempts := pass_att
              passingCompletions := pass_cmp
              passingYards := pass_yds
              passingTouchdowns := pass_tds
              passingInterceptions := pass_int
              qbRating := _safe_float s.qb_rating
              qbr := _safe_float s.qbr
              photoUrl := db.photo name team_abbr }

/-- Season-list sort key: receiving yards for positions WR/TE, rushing yards
otherwise (the source `int(... or 0)` is the identity on these already
coerced integer fields). -/
def listSortKey (r : PlayerListRow) : Int :=
  let pos := asciiUpper (r.position.getD "")
  if pos = "WR" ∨ pos = "TE" then r.receivingYards else r.rushingYards

/-- Season-list pipeline before the final slice, early exits included. -/
def playersListSorted (db : Db) (season : Option Int) (position team : Option String) :
    List PlayerListRow :=
  match season with
  | none => []
  | some season =>
    let stats_rows := listStatsRows db season
    if stats_rows.isEmpty then []
    else
      if (listPlayerIds db season).isEmpty then []
      else
        let teamId := resolveTeamId db team
        let posFilter := asciiUpper (pyStrip (position.getD ""))
        let pmap := listPlayerMap db season
        let tmap := _team_map db (listTeamIds db season)
        sortLe (fun a b => decide (listSortKey b ≤ listSortKey a))
          (stats_rows.filterMap (listRowOf db season posFilter teamId pmap tmap))

/-- Source `get_players_list`: Fetch → Join → Derive → Rank, then slice to
`min(max(limit, 1), 300)` rows. -/
def get_players_list (db : Db) (season : Option Int) (position team : Option String)
    (limit : Int) : List PlayerListRow :=
  (playersListSorted db season position team).take (min (max limit 1) 300).toNat

/-- Null-last ascending comparison on the `week` column (the store option
`order=week.asc`). -/
def weekLe (a b : GameStatRow) : Bool :=
  match _safe_int a.week, _safe_int b.week with
  | some x, some y => decide (x ≤ y)
  | some _, none => true
  | none, some _ => false
  | none, none => true

/-- Fetch stage of the game log: player/season equality filters, optional
regular-season restriction, ordered by week, row cap 400. -/
def gameLogFetch (db : Db) (pid : Int) (season : Int) (includePost : Bool) :
    List GameStatRow :=
  (sortLe weekLe (db.gameStats.filter fun r =>
    r.player_id == Value.vint pid && r.season == Value.vint season &&
    (includePost || r.postseason == Value.vbool false))).take 400

/-- Distinct game ids referenced by the fetched rows (source line 344; on the
integer-typed store the raw `int(...)` there cannot raise, and the embedding
skips failures). -/
def gameLogGameIds (db : Db) (pid : Int) (season : Int) (includePost : Bool) : List Int :=
  uniqSortedAsc ((gameLogFetch db pid season includePost).filterMap fun r =>
    if r.game_id = Value.vnull ∨ r.game_id = Value.vstr "" then none
    else pyIntOfValue r.game_id)

/-- Join stage of the game log: batch-fetch the referenced games. -/
def gameLogGames (db : Db) (pid : Int) (season : Int) (includePost : Bool) : List GameRow :=
  (db.games.filter fun g => inIntList g.id (gameLogGameIds db pid season includePost)).take
    (gameLogGameIds db pid season includePost).length

/-- Source `game_map`: id → game record (ids failing coercion skipped). -/
def gameLogGameMap (db : Db) (pid : Int) (season : Int) (includePost : Bool) :
    List (Int × GameRow) :=
  (gameLogGames db pid season includePost).filterMap fun g =>
    (_safe_int g.id).map fun gid => (gid, g)

/-- Team ids collected for the game log: home/visitor ids of the fetched
games plus the team ids of the rows, as a sorted set. -/
def gameLogTeamIds (db : Db) (pid : Int) (season : Int) (includePost : Bool) : List Int :=
  uniqSortedAsc
    (((gameLogGames db pid season includePost).filterMap fun g => _safe_int g.home_team_id) ++
      ((gameLogGames db pid season includePost).filterMap fun g => _safe_int g.visitor_team_id) ++
      ((gameLogFetch db pid season includePost).filterMap fun r => _safe_int r.team_id))

/-- Output row of the player game log. -/
structure GameLogRow where
  season : Int
  week : Int
  game_id : String
  team : Option String
  opponent : Option String
  home_team : Option String
  away_team : Option String
  location : String
  is_postseason : Bool
  targets : Int
  receptions : Int
  rec_yards : Int
  rec_tds : Int
  air_yards : Int
  yac : Int
  rush_attempts : Int
  rush_yards : Int
  rush_tds : Int
  passing_attempts : Int
  passing_completions : Int
  passing_yards : Int
  passing_tds : Int
  interceptions : Int
  qb_rating : Option PyFloat
  qbr : Option PyFloat
  deriving DecidableEq, Repr

/-- Derive stage of the game log, one stat row at a time: rows whose game id
fails coercion are dropped; location/opponent come from comparing the team id of the row
with the home/visitor ids of the game when all three resolve, defaulting
to "home" with a null opponent otherwise. -/
def gameLogRowOf (season : Int) (gmap : List (Int × GameRow)) (tmap : List (Int × String))
    (r : GameStatRow) : Option GameLogRow :=
  match _safe_int r.game_id with
  | none => none
  | some gid =>
    let g := dictGet gmap gid
    let ht := g.bind fun gr => _safe_int gr.home_team_id
    let vt := g.bind fun gr => _safe_int gr.visitor_team_id
    let tid := _safe_int r.team_id
    let team_abbr := tid.bind fun t => dictGet tmap t
    let home_abbr := ht.bind fun t => dictGet tmap t
    let away_abbr := vt.bind fun t => dictGet tmap t
    let locOpp : String × Option String :=
      match tid, ht, vt with
      | some t, some h, some _ => if t = h then ("home", away_abbr) else ("away", home_abbr)
      | _, _, _ => ("home", none)
    some
      { season := pyOrInt (_safe_int r.season) season
        week := pyOrInt (_safe_int r.week) 0
        game_id := toString gid
        team := team_abbr
        opponent := locOpp.2
        home_team := home_abbr
        away_team := away_abbr
        location := locOpp.1
        is_postseason := r.postseason.truthy
        targets := pyOrInt (_safe_int r.receiving_targets) 0
        receptions := pyOrInt (_safe_int r.receptions) 0
        rec_yards := pyOrInt (_safe_int r.receiving_yards) 0
        rec_tds := pyOrInt (_safe_int r.receiving_touchdowns) 0
        air_yards := 0
        yac := 0
        rush_attempts := pyOrInt (_safe_int r.rushing_attempts) 0
        rush_yards := pyOrInt (_safe_int r.rushing_yards) 0
        rush_tds := pyOrInt (_safe_int r.rushing_touchdowns) 0
        passing_attempts := pyOrInt (_safe_int r.passing_attempts) 0
        passing_completions := pyOrInt (_safe_int r.passing_completions) 0
        passing_yards := pyOrInt (_safe_int r.passing_yards) 0
        passing_tds := pyOrInt (_safe_int r.passing_touchdowns) 0
        interceptions := pyOrInt (_safe_int r.passing_interceptions) 0
        qb_rating := _safe_float r.qb_rating
        qbr := _safe_float r.qbr }

/-- Source `get_player_game_logs`: empty when the player id string fails
coercion, otherwise Fetch → Join → Derive in week order (no ranking, 400-row
safety cap at the fetch). -/
def get_player_game_logs (db : Db) (player_id : String) (season : Int)
    (include_postseason : Bool) : List GameLogRow :=
  match _safe_int (Value.vstr player_id) with
  | none => []
  | some pid =>
    (gameLogFetch db pid season include_postseason).filterMap
      (gameLogRowOf season (gameLogGameMap db pid season include_postseason)
        (_team_map db (gameLogTeamIds db pid season include_postseason)))

/-- Fetch stage of the weekly dashboards: season/week equality filters,
regular season only, the optional team filter applied only when the supplied
abbreviation resolves, row cap 5000. -/
def dashFetch (db : Db) (season week : Int) (team : Option String) : List GameStatRow :=
  let tid := resolveTeamId db team
  (db.gameStats.filter fun r =>
    r.season == Value.vint season && r.week == Value.vint week &&
    r.postseason == Value.vbool false &&
    (match tid with | some t => r.team_id == Value.vint t | none => true)).take 5000

/-- Receiving dashboard rows after the client-side sort by targets and the
slice to `min(max(limit, 1), 200)`. -/
def recvDashTaken (db : Db) (season week : Int) (team : Option String) (limit : Int) :
    List GameStatRow :=
  (sortLe (fun a b =>
      decide (pyOrInt (_safe_int b.receiving_targets) 0 ≤ pyOrInt (_safe_int a.receiving_targets) 0))
    (dashFetch db season week team)).take (min (max limit 1) 200).toNat

/-- Player map of the receiving dashboard. -/
def recvDashPlayerMap (db : Db) (season week : Int) (team : Option String) (limit : Int) :
    List (Int × PlayerRow) :=
  let pids := uniqSortedAsc ((recvDashTaken db season week team limit).filterMap fun r =>
    _safe_int r.player_id)
  ((db.players.filter fun p => inIntList p.id pids).take pids.length).filterMap fun p =>
    (_safe_int p.id).map fun i => (i, p)

/-- Team map of the receiving dashboard. -/
def recvDashTeamMap (db : Db) (season week : Int) (team : Option String) (limit : Int) :
    List (Int × String) :=
  _team_map db (uniqSortedAsc ((recvDashTaken db season week team limit).filterMap fun r =>
    _safe_int r.team_id))

/-- Output row of the weekly receiving dashboard. -/
structure DashRecRow where
  season : Int
  week : Int
  team : Option String
  player_id : String
  player_name : String
  position : Option String
  targets : Int
  receptions : Int
  rec_yards : Int
  rec_tds : Int
  air_yards : Int
  yac : Int
  photoUrl : Option String
  deriving DecidableEq, Repr

/-- Derive stage of the receiving dashboard: rows whose player id fails
coercion are dropped; a player-map miss keeps the row, with the name falling
back to the id string and a null position. -/
def dashRecRowOf (db : Db) (season week : Int) (pmap : List (Int × PlayerRow))
    (tmap : List (Int × String)) (r : GameStatRow) : Option DashRecRow :=
  match _safe_int r.player_id with
  | none => none
  | some pid =>
    let p := dictGet pmap pid
    let first := pyStrip (match p with | some pr => textOr pr.first_name | none => "")
    let last := pyStrip (match p with | some pr => textOr pr.last_name | none => "")
    let name0 := pyStrip (first ++ " " ++ last)
    let name := if name0 = "" then toString pid else name0
    let tid := _safe_int r.team_id
    let teamA := tid.bind fun t => dictGet tmap t
    some
      { season := season
        week := week
        team := teamA
        player_id := toString pid
        player_name := name
        position := match p with | some pr => textOrNone pr.position_abbreviation | none => none
        targets := pyOrInt (_safe_int r.receiving_targets) 0
        receptions := pyOrInt (_safe_int r.receptions) 0
        rec_yards := pyOrInt (_safe_int r.receiving_yards) 0
        rec_tds := pyOrInt (_safe_int r.receiving_touchdowns) 0
        air_yards := 0
        yac := 0
        photoUrl := db.photo name teamA }

/-- Source `receiving_dashboard`. -/
def receiving_dashboard (db : Db) (season week : Int) (team : Option String) (limit : Int) :
    List DashRecRow :=
  (recvDashTaken db season week team limit).filterMap
    (dashRecRowOf db season week (recvDashPlayerMap db season week team limit)
      (recvDashTeamMap db season week team limit))

/-- Rushing dashboard rows after the client-side sort by rushing yards and
the slice to `min(max(limit, 1), 200)`. -/
def rushDashTaken (db : Db) (season week : Int) (team : Option String) (limit : Int) :
    List GameStatRow :=
  (sortLe (fun a b =>
      decide (pyOrInt (_safe_int b.rushing_yards) 0 ≤ pyOrInt (_safe_int a.rushing_yards) 0))
    (dashFetch db season week team)).take (min (max limit 1) 200).toNat

/-- Player map of the rushing dashboard. -/
def rushDashPlayerMap (db : Db) (season week : Int) (team : Option String) (limit : Int) :
    List (Int × PlayerRow) :=
  let pids := uniqSortedAsc ((rushDashTaken db season week team limit).filterMap fun r =>
    _safe_int r.player_id)
  ((db.players.filter fun p => inIntList p.id pids).take pids.length).filterMap fun p =>
    (_safe_int p.id).map fun i => (i, p)

/-- Team map of the rushing dashboard. -/
def rushDashTeamMap (db : Db) (season week : Int) (team : Option String) (limit : Int) :
    List (Int × String) :=
  _team_map db (uniqSortedAsc ((rushDashTaken db season week team limit).filterMap fun r =>
    _safe_int r.team_id))

/-- Output row of the weekly rushing dashboard. -/
structure DashRushRow where
  season : Int
  week : Int
  team : Option String
  player_id : String
  player_name : String
  position : Option String
  rush_attempts : Int
  rush_yards : Int
  rush_tds : Int
  receptions : Int
  rec_yards : Int
  photoUrl : Option String
  deriving DecidableEq, Repr

/-- Derive stage of the rushing dashboard (same retention behaviour as the
receiving one). -/
def dashRushRowOf (db : Db) (season week : Int) (pmap : List (Int × PlayerRow))
    (tmap : List (Int × String)) (r : GameStatRow) : Option DashRushRow :=
  match _safe_int r.player_id with
  | none => none
  | some pid =>
    let p := dictGet pmap pid
    let first := pyStrip (match p with | some pr => textOr pr.first_name | none => "")
    let last := pyStrip (match p with | some pr => textOr pr.last_name | none => "")
    let name0 := pyStrip (first ++ " " ++ last)
    let name := if name0 = "" then toString pid else name0
    let tid := _safe_int r.team_id
    let teamA := tid.bind fun t => dictGet tmap t
    some
      { season := season
        week := week
        team := teamA
        player_id := toString pid
        player_name := name
        position := match p with | some pr => textOrNone pr.position_abbreviation | none => none
        rush_attempts := pyOrInt (_safe_int r.rushing_attempts) 0
        rush_yards := pyOrInt (_safe_int r.rushing_yards) 0
        rush_tds := pyOrInt (_safe_int r.rushing_touchdowns) 0
        receptions := pyOrInt (_safe_int r.receptions) 0
        rec_yards := pyOrInt (_safe_int r.receiving_yards) 0
        photoUrl := db.photo name teamA }

/-- Source `rushing_dashboard`. -/
def rushing_dashboard (db : Db) (season week : Int) (team : Option String) (limit : Int) :
    List DashRushRow :=
  (rushDashTaken db season week team limit).filterMap
    (dashRushRowOf db season week (rushDashPlayerMap db season week team limit)
      (rushDashTeamMap db season week team limit))

/-- Source `by_team` accumulation of `receiving_season`: a dict keyed by the
team abbreviation of the row (null pooled as ""), summing targets; embedded
extensionally as the function the dict denotes. -/
def byTeamTargets (rows : List PlayerListRow) : String → Int :=
  rows.foldl (fun acc r => fun t => if r.team.getD "" = t then acc t + r.targets else acc t)
    (fun _ => 0)

/-- Output row of the season receiving summary. -/
structure RecSeasonRow where
  season : Int
  team : Option String
  player_id : String
  player_name : String
  position : Option String
  targets : Int
  receptions : Int
  rec_yards : Int
  air_yards : Int
  rec_tds : Int
  team_target_share : Option PyFloat
  photoUrl : Option String
  deriving DecidableEq, Repr

/-- Derive stage of the season receiving summary: keep positions WR/TE/RB,
attach the team-target share (null when the team total is zero). -/
def recSeasonRowOf (db : Db) (season : Int) (byTeam : String → Int) (r : PlayerListRow) :
    Option RecSeasonRow :=
  let pos := asciiUpper (r.position.getD "")
  if pos = "WR" ∨ pos = "TE" ∨ pos = "RB" then
    let denom := byTeam (r.team.getD "")
    some
      { season := season
        team := r.team
        player_id := r.player_id
        player_name := r.player_name
        position := r.position
        targets := r.targets
        receptions := r.receptions
        rec_yards := r.receivingYards
        air_yards := 0
        rec_tds := r.receivingTouchdowns
        team_target_share := if denom ≠ 0 then some (PyFloat.make r.targets denom) else none
        photoUrl := db.photo r.player_name (some (r.team.getD "")) }
  else none

/-- Source `receiving_season`: reuse the season list (limit 8000, itself
capped at 300), add the share metric, sort by targets, cap at 200. -/
def receiving_season (db : Db) (season : Int) (team : Option String) (limit : Int) :
    List RecSeasonRow :=
  let rows := get_players_list db (some season) none team 8000
  let out := rows.filterMap (recSeasonRowOf db season (byTeamTargets rows))
  (sortLe (fun a b => decide (b.targets ≤ a.targets)) out).take (min (max limit 1) 200).toNat

/-- Source `by_team` accumulation of `rushing_season`, summing rush attempts. -/
def byTeamRush (rows : List PlayerListRow) : String → Int :=
  rows.foldl (fun acc r => fun t => if r.team.getD "" = t then acc t + r.rushAttempts else acc t)
    (fun _ => 0)

/-- Output row of the season rushing summary. -/
structure RushSeasonRow where
  season : Int
  team : Option String
  player_id : String
  player_name : String
  position : Option String
  rush_attempts : Int
  rush_yards : Int
  rush_tds : Int
  team_rush_share : Option PyFloat
  photoUrl : Option String
  deriving DecidableEq, Repr

/-- Derive stage of the season rushing summary: keep positions RB/QB/WR/TE,
attach the team-rush share (null when the team total is zero). -/
def rushSeasonRowOf (db : Db) (season : Int) (byTeam : String → Int) (r : PlayerListRow) :
    Option RushSeasonRow :=
  let pos := asciiUpper (r.position.getD "")
  if pos = "RB" ∨ pos = "QB" ∨ pos = "WR" ∨ pos = "TE" then
    let denom := byTeam (r.team.getD "")
    some
      { season := season
        team := r.team
        player_id := r.player_id
        player_name := r.player_name
        position := r.position
        rush_attempts := r.rushAttempts
        rush_yards := r.rushingYards
        rush_tds := r.rushingTouchdowns
        team_rush_share := if denom ≠ 0 then some (PyFloat.make r.rushAttempts denom) else none
        photoUrl := db.photo r.player_name (some (r.team.getD "")) }
  else none

/-- Source `rushing_season`: reuse the season list, add the share metric,
sort by rushing yards, cap at 200. -/
def rushing_season (db : Db) (season : Int) (team : Option String) (limit : Int) :
    List RushSeasonRow :=
  let rows := get_players_list db (some season) none team 8000
  let out := rows.filterMap (rushSeasonRowOf db season (byTeamRush rows))
  (sortLe (fun a b => decide (b.rush_yards ≤ a.rush_yards)) out).take
    (min (max limit 1) 200).toNat

/-- Predicate that a cell is an integer (store well-typedness of id columns). -/
def Value.isInt : Value → Bool
  | .vint _ => true
  | _ => false

/-- Headshot resolver of the concrete examples: the static CSV is absent, so
every lookup yields null. -/
def noPhoto : String → Option String → Option String := fun _ _ => none

/-- Season-stat row with all counters 0 (regular season). -/
def zeroSeasonStat (pid season : Int) : SeasonStatRow :=
  { player_id := .vint pid
    season := .vint season
    postseason := .vbool false
    games_played := .vint 0
    passing_attempts := .vint 0
    passing_completions := .vint 0
    passing_yards := .vint 0
    passing_touchdowns := .vint 0
    passing_interceptions := .vint 0
    qbr := .vnull
    qb_rating := .vnull
    rushing_attempts := .vint 0
    rushing_yards := .vint 0
    rushing_touchdowns := .vint 0
    receptions := .vint 0
    receiving_yards := .vint 0
    receiving_touchdowns := .vint 0
    receiving_targets := .vint 0 }

/-- Game-stat row with all counters 0 (regular season, null team id). -/
def zeroGameStat (pid gid season week : Int) : GameStatRow :=
  { player_id := .vint pid
    game_id := .vint gid
    season := .vint season
    week := .vint week
    postseason := .vbool false
    team_id := .vnull
    rushing_attempts := .vint 0
    rushing_yards := .vint 0
    rushing_touchdowns := .vint 0
    receptions := .vint 0
    receiving_yards := .vint 0
    receiving_touchdowns := .vint 0
    receiving_targets := .vint 0
    passing_attempts := .vint 0
    passing_completions := .vint 0
    passing_yards := .vint 0
    passing_touchdowns := .vint 0
    passing_interceptions := .vint 0
    qbr := .vnull
    qb_rating := .vnull }

/-- Concrete store: teams KC (id 10) and SF (id 20); a WR, an RB and a QB;
one game (KC home vs SF); 2023 season stats (WR: 80 targets / 120 yards,
RB: 20 rushes / 80 yards, QB: 20 targets / 30 pass attempts, plus a
player-4 row with every counter 0); week-5 game stats for the WR and RB,
and two game-stat rows for player 7 exercising unresolvable game lookups. -/
def exDb : Db :=
  { teams := [⟨.vint 10, .vstr "KC"⟩, ⟨.vint 20, .vstr "SF"⟩]
    players :=
      [⟨.vint 1, .vstr "Al", .vstr "Wide", .vstr "WR", .vint 10⟩,
        ⟨.vint 2, .vstr "Bo", .vstr "Rush", .vstr "RB", .vint 20⟩,
        ⟨.vint 3, .vstr "Cy", .vstr "Quarter", .vstr "QB", .vint 10⟩]
    games := [⟨.vint 100, .vint 10, .vint 20, .vbool false⟩]
    seasonStats :=
      [{ zeroSeasonStat 1 2023 with
          receiving_targets := .vint 80
          receptions := .vint 10
          receiving_yards := .vint 120 },
        { zeroSeasonStat 2 2023 with
          rushing_attempts := .vint 20
          rushing_yards := .vint 80 },
        { zeroSeasonStat 3 2023 with
          receiving_targets := .vint 20
          passing_attempts := .vint 30 },
        zeroSeasonStat 4 2023]
    gameStats :=
      [{ zeroGameStat 1 100 2023 5 with
          team_id := .vint 10
          receiving_targets := .vint 9 },
        { zeroGameStat 2 100 2023 5 with
          team_id := .vint 20
          rushing_yards := .vint 55 },
        { zeroGameStat 7 999 2023 3 with team_id := .vint 10 },
        { zeroGameStat 7 0 2023 4 with game_id := .vnull }]
    photo := noPhoto }

/-- Store with one week-5 fact row and no players at all, so the player
lookup cannot resolve anything. -/
def exDbNoPlayers : Db :=
  { teams := []
    players := []
    games := []
    seasonStats := []
    gameStats := [{ zeroGameStat 1 100 2023 5 with receiving_targets := .vint 4 }]
    photo := noPhoto }

/-- The WR row of `get_players_list exDb (some 2023) none none 10`. -/
def exListRow1 : PlayerListRow :=
  { player_id := "1"
    player_name := "Al Wide"
    team := some "KC"
    position := some "WR"
    season := 2023
    games := 0
    targets := 80
    receptions := 10
    receivingYards := 120
    receivingTouchdowns := 0
    avgYardsPerCatch := ⟨12, 1⟩
    rushAttempts := 0
    rushingYards := 0
    rushingTouchdowns := 0
    avgYardsPerRush := ⟨0, 1⟩
    passingAttempts := 0
    passingCompletions := 0
    passingYards := 0
    passingTouchdowns := 0
    passingInterceptions := 0
    qbRating := none
    qbr := none
    photoUrl := none }

/-- The WR row of `receiving_dashboard exDb 2023 5 (some "KC") 10`. -/
def exDashRow1 : DashRecRow :=
  { season := 2023
    week := 5
    team := some "KC"
    player_id := "1"
    player_name := "Al Wide"
    position := some "WR"
    targets := 9
    receptions := 0
    rec_yards := 0
    rec_tds := 0
    air_yards := 0
    yac := 0
    photoUrl := none }

/-- The WR row of `receiving_season exDb 2023 none 10` (share 80/100). -/
def exRecSeasonRow1 : RecSeasonRow :=
  { season := 2023
    team := some "KC"
    player_id := "1"
    player_name := "Al Wide"
    position := some "WR"
    targets := 80
    receptions := 10
    rec_yards := 120
    air_yards := 0
    rec_tds := 0
    team_target_share := some ⟨4, 5⟩
    photoUrl := none }

/-- The WR game-log row of `get_player_game_logs exDb "1" 2023 false`. -/
def exLogRow1 : GameLogRow :=
  { season := 2023
    week := 5
    game_id := "100"
    team := some "KC"
    opponent := some "SF"
    home_team := some "KC"
    away_team := some "SF"
    location := "home"
    is_postseason := false
    targets := 9
    receptions := 0
    rec_yards := 0
    rec_tds := 0
    air_yards := 0
    yac := 0
    rush_attempts := 0
    rush_yards := 0
    rush_tds := 0
    passing_attempts := 0
    passing_completions := 0
    passing_yards := 0
    passing_tds := 0
    interceptions := 0
    qb_rating := none
    qbr := none }

/-- The game-log row of player 7 (game id 999 resolves no game record). -/
def exLogRow7 : GameLogRow :=
  { season := 2023
    week := 3
    game_id := "999"
    team := some "KC"
    opponent := none
    home_team := none
    away_team := none
    location := "home"
    is_postseason := false
    targets := 0
    receptions := 0
    rec_yards := 0
    rec_tds := 0
    air_yards := 0
    yac := 0
    rush_attempts := 0
    rush_yards := 0
    rush_tds := 0
    passing_attempts := 0
    passing_completions := 0
    passing_yards := 0
    passing_tds := 0
    interceptions := 0
    qb_rating := none
    qbr := none }

/-- The dangling fact row of player 7 (its game id 999 matches no game). -/
def exStat7 : GameStatRow := { zeroGameStat 7 999 2023 3 with team_id := .vint 10 }

theorem mem_insertLe {α : Type} (le : α → α → Bool) (x a : α) (l : List α) :
    a ∈ insertLe le x l ↔ a = x ∨ a ∈ l := by
  induction l with
  | nil => simp [insertLe]
  | cons y ys ih =>
    simp only [insertLe]
    by_cases h : le y x
    · simp [h, ih]
      tauto
    · simp [h]

theorem mem_sortLe_go {α : Type} (le : α → α → Bool) (l acc : List α) (a : α) :
    a ∈ l.foldl (fun acc x => insertLe le x acc) acc ↔ a ∈ acc ∨ a ∈ l := by
  induction l generalizing acc with
  | nil => simp
  | cons x xs ih =>
    simp only [List.foldl_cons, ih, mem_insertLe, List.mem_cons]
    tauto

theorem mem_sortLe {α : Type} (le : α → α → Bool) (l : List α) (a : α) :
    a ∈ sortLe le l ↔ a ∈ l := by
  simp [sortLe, mem_sortLe_go]

theorem insertLe_perm {α : Type} (le : α → α → Bool) (x : α) (l : List α) :
    (insertLe le x l).Perm (x :: l) := by
  induction l with
  | nil => simp [insertLe]
  | cons y ys ih =>
    simp only [insertLe]
    by_cases h : le y x
    · simp only [h, if_true]
      exact (ih.cons y).trans (List.Perm.swap x y ys)
    · simp [h]

theorem sortLe_perm_go {α : Type} (le : α → α → Bool) (l acc : List α) :
    (l.foldl (fun acc x => insertLe le x acc) acc).Perm (acc ++ l) := by
  induction l generalizing acc with
  | nil => simp
  | cons x xs ih =>
    simp only [List.foldl_cons]
    refine (ih (insertLe le x acc)).trans ?_
    have h1 : (insertLe le x acc ++ xs).Perm ((x :: acc) ++ xs) :=
      (insertLe_perm le x acc).append_right xs
    refine h1.trans ?_
    simpa using List.perm_middle.symm

theorem sortLe_perm {α : Type} (le : α → α → Bool) (l : List α) :
    (sortLe le l).Perm l := by
  simpa using sortLe_perm_go le l []

theorem pairwise_insertLe {α : Type} (le : α → α → Bool)
    (htrans : ∀ a b c, le a b = true → le b c = true → le a c = true)
    (htotal : ∀ a b, le a b = true ∨ le b a = true)
    (x : α) (l : List α) (h : l.Pairwise fun a b => le a b = true) :
    (insertLe le x l).Pairwise fun a b => le a b = true := by
  induction l with
  | nil => simp [insertLe]
  | cons y ys ih =>
    rcases List.pairwise_cons.mp h with ⟨hy, hys⟩
    simp only [insertLe]
    by_cases hyx : le y x
    · simp only [hyx, if_true]
      refine List.pairwise_cons.mpr ⟨?_, ih hys⟩
      intro b hb
      rcases (mem_insertLe le x b ys).mp hb with rfl | hb
      · exact hyx
      · exact hy b hb
    · simp only [hyx, if_false]
      have hxy : le x y = true := (htotal x y).resolve_right (by simpa using hyx)
      refine List.pairwise_cons.mpr ⟨?_, h⟩
      intro b hb
      rcases List.mem_cons.mp hb with rfl | hb
      · exact hxy
      · exact htrans x y b hxy (hy b hb)

theorem pairwise_sortLe_go {α : Type} (le : α → α → Bool)
    (htrans : ∀ a b c, le a b = true → le b c = true → le a c = true)
    (htotal : ∀ a b, le a b = true ∨ le b a = true)
    (l acc : List α) (hacc : acc.Pairwise fun a b => le a b = true) :
    (l.foldl (fun acc x => insertLe le x acc) acc).Pairwise fun a b => le a b = true := by
  induction l generalizing acc with
  | nil => simpa using hacc
  | cons x xs ih =>
    simp only [List.foldl_cons]
    exact ih (insertLe le x acc) (pairwise_insertLe le htrans htotal x acc hacc)

theorem pairwise_sortLe {α : Type} (le : α → α → Bool)
    (htrans : ∀ a b c, le a b = true → le b c = true → le a c = true)
    (htotal : ∀ a b, le a b = true ∨ le b a = true) (l : List α) :
    (sortLe le l).Pairwise fun a b => le a b = true :=
  pairwise_sortLe_go le htrans htotal l [] (by simp)

theorem dictGet_mem {α : Type} (l : List (Int × α)) (k : Int) (v : α)
    (h : dictGet l k = some v) : (k, v) ∈ l := by
  induction l with
  | nil => simp [dictGet] at h
  | cons p rest ih =>
    obtain ⟨k2, w⟩ := p
    simp only [dictGet] at h
    cases hr : dictGet rest k with
    | some r =>
      rw [hr] at h
      exact List.mem_cons.mpr (Or.inr (ih (hr.trans h)))
    | none =>
      rw [hr] at h
      by_cases hk : k2 = k
      · simp only [hk, if_true] at h
        subst hk
        exact List.mem_cons.mpr (Or.inl (by rw [Option.some.inj h]))
      · simp [hk] at h

theorem dictGet_ne_none {α : Type} (l : List (Int × α)) (k : Int) (v : α)
    (h : (k, v) ∈ l) : dictGet l k ≠ none := by
  induction l with
  | nil => simp at h
  | cons p rest ih =>
    obtain ⟨k2, w⟩ := p
    simp only [dictGet]
    rcases List.mem_cons.mp h with heq | hmem
    · have hk : k2 = k := by
        have := congrArg Prod.fst heq
        simpa using this.symm
      cases hr : dictGet rest k with
      | some r => simp
      | none => simp [hk]
    · cases hr : dictGet rest k with
      | some r => simp
      | none => exact absurd hr (ih hmem)

theorem length_filterMap_eq_filter {α β : Type} (f : α → Option β) (l : List α) :
    (l.filterMap f).length = (l.filter fun a => (f a).isSome).length := by
  induction l with
  | nil => rfl
  | cons x xs ih =>
    cases h : f x with
    | none => simp [List.filterMap_cons, List.filter_cons, h, ih]
    | some b => simp [List.filterMap_cons, List.filter_cons, h, ih]

theorem mem_uniqSortedAsc (l : List Int) (a : Int) : a ∈ uniqSortedAsc l ↔ a ∈ l := by
  simp [uniqSortedAsc, mem_sortLe, List.mem_dedup]

theorem nodup_uniqSortedAsc (l : List Int) : (uniqSortedAsc l).Nodup :=
  (sortLe_perm _ l.dedup).nodup_iff.mpr l.nodup_dedup

theorem listRowOf_inv (db : Db) (season : Int) (posFilter : String) (teamId : Option Int)
    (pmap : List (Int × PlayerRow)) (tmap : List (Int × String)) (s : SeasonStatRow)
    (r : PlayerListRow) (h : listRowOf db season posFilter teamId pmap tmap s = some r) :
    ∃ pid p, _safe_int s.player_id = some pid ∧ dictGet pmap pid = some p ∧
      r.player_id = toString pid ∧
      r.team = (_safe_int p.team_id).bind (fun t => dictGet tmap t) ∧
      r.targets = pyOrInt (_safe_int s.receiving_targets) 0 ∧
      r.receptions = pyOrInt (_safe_int s.receptions) 0 ∧
      r.rushAttempts = pyOrInt (_safe_int s.rushing_attempts) 0 ∧
      r.passingAttempts = pyOrInt (_safe_int s.passing_attempts) 0 ∧
      r.passingCompletions = pyOrInt (_safe_int s.passing_completions) 0 := by
  unfold listRowOf at h
  cases hpid : _safe_int s.player_id with
  | none => rw [hpid] at h; simp at h
  | some pid =>
    rw [hpid] at h
    simp only [] at h
    cases hp : dictGet pmap pid with
    | none => rw [hp] at h; simp at h
    | some p =>
      rw [hp] at h
      simp only [] at h
      refine ⟨pid, p, rfl, hp, ?_⟩
      split at h
      · simp at h
      · split at h
        · simp at h
        · obtain rfl := (Option.some.inj h).symm
          exact ⟨rfl, rfl, rfl, rfl, rfl, rfl, rfl⟩

theorem dashRecRowOf_isSome (db : Db) (se wk : Int) (pmap : List (Int × PlayerRow))
    (tmap : List (Int × String)) (r0 : GameStatRow) :
    (dashRecRowOf db se wk pmap tmap r0).isSome = (_safe_int r0.player_id).isSome := by
  unfold dashRecRowOf
  cases _safe_int r0.player_id <;> simp

theorem dashRecRowOf_inv (db : Db) (se wk : Int) (pmap : List (Int × PlayerRow))
    (tmap : List (Int × String)) (r0 : GameStatRow) (r : DashRecRow)
    (h : dashRecRowOf db se wk pmap tmap r0 = some r) :
    ∃ pid, _safe_int r0.player_id = some pid ∧ r.player_id = toString pid ∧
      r.team = ((_safe_int r0.team_id).bind fun t => dictGet tmap t) := by
  unfold dashRecRowOf at h
  cases hpid : _safe_int r0.player_id with
  | none => rw [hpid] at h; simp at h
  | some pid =>
    rw [hpid] at h
    obtain rfl := (Option.some.inj h).symm
    exact ⟨pid, rfl, rfl, rfl⟩

theorem dashRushRowOf_isSome (db : Db) (se wk : Int) (pmap : List (Int × PlayerRow))
    (tmap : List (Int × String)) (r0 : GameStatRow) :
    (dashRushRowOf db se wk pmap tmap r0).isSome = (_safe_int r0.player_id).isSome := by
  unfold dashRushRowOf
  cases _safe_int r0.player_id <;> simp

theorem dashRushRowOf_inv (db : Db) (se wk : Int) (pmap : List (Int × PlayerRow))
    (tmap : List (Int × String)) (r0 : GameStatRow) (r : DashRushRow)
    (h : dashRushRowOf db se wk pmap tmap r0 = some r) :
    ∃ pid, _safe_int r0.player_id = some pid ∧ r.player_id = toString pid ∧
      r.team = ((_safe_int r0.team_id).bind fun t => dictGet tmap t) := by
  unfold dashRushRowOf at h
  cases hpid : _safe_int r0.player_id with
  | none => rw [hpid] at h; simp at h
  | some pid =>
    rw [hpid] at h
    obtain rfl := (Option.some.inj h).symm
    exact ⟨pid, rfl, rfl, rfl⟩

theorem gameLogRowOf_isSome (season : Int) (gmap : List (Int × GameRow))
    (tmap : List (Int × String)) (r0 : GameStatRow) :
    (gameLogRowOf season gmap tmap r0).isSome = (_safe_int r0.game_id).isSome := by
  unfold gameLogRowOf
  cases _safe_int r0.game_id <;> simp

theorem gameLogRowOf_resolved (season : Int) (gmap : List (Int × GameRow))
    (tmap : List (Int × String)) (r0 : GameStatRow) (r : GameLogRow)
    (gid tid ht vt : Int) (gr : GameRow)
    (hgid : _safe_int r0.game_id = some gid)
    (hg : dictGet gmap gid = some gr)
    (htid : _safe_int r0.team_id = some tid)
    (hht : _safe_int gr.home_team_id = some ht)
    (hvt : _safe_int gr.visitor_team_id = some vt)
    (h : gameLogRowOf season gmap tmap r0 = some r) :
    (tid = ht → r.location = "home" ∧ r.opponent = dictGet tmap vt) ∧
    (tid ≠ ht → r.location = "away" ∧ r.opponent = dictGet tmap ht) := by
  unfold gameLogRowOf at h
  rw [hgid] at h
  simp only [hg, Option.some_bind, htid, hht, hvt] at h
  by_cases he : tid = ht
  · simp only [he, if_true] at h
    obtain rfl := (Option.some.inj h).symm
    exact ⟨fun _ => ⟨rfl, rfl⟩, fun hne => absurd he hne⟩
  · simp only [he, if_false] at h
    obtain rfl := (Option.some.inj h).symm
    exact ⟨fun heq => absurd heq he, fun _ => ⟨rfl, rfl⟩⟩

theorem gameLogRowOf_default (season : Int) (gmap : List (Int × GameRow))
    (tmap : List (Int × String)) (r0 : GameStatRow) (r : GameLogRow) (gid : Int)
    (hgid : _safe_int r0.game_id = some gid)
    (hdef : ((dictGet gmap gid).bind fun gr => _safe_int gr.home_team_id) = none ∨
      ((dictGet gmap gid).bind fun gr => _safe_int gr.visitor_team_id) = none ∨
      _safe_int r0.team_id = none)
    (h : gameLogRowOf season gmap tmap r0 = some r) :
    r.location = "home" ∧ r.opponent = none := by
  unfold gameLogRowOf at h
  rw [hgid] at h
  simp only [] at h
  cases htid : _safe_int r0.team_id with
  | none =>
    rw [htid] at h
    obtain rfl := (Option.some.inj h).symm
    exact ⟨rfl, rfl⟩
  | some tid =>
    rw [htid] at h
    cases hht : ((dictGet gmap gid).bind fun gr => _safe_int gr.home_team_id) with
    | none =>
      rw [hht] at h
      obtain rfl := (Option.some.inj h).symm
      exact ⟨rfl, rfl⟩
    | some ht =>
      rw [hht] at h
      cases hvt : ((dictGet gmap gid).bind fun gr => _safe_int gr.visitor_team_id) with
      | none =>
        rw [hvt] at h
        obtain rfl := (Option.some.inj h).symm
        exact ⟨rfl, rfl⟩
      | some vt =>
        rcases hdef with h1 | h1 | h1
        · exact absurd (hht.symm.trans h1) (by simp)
        · exact absurd (hvt.symm.trans h1) (by simp)
        · exact absurd (htid.symm.trans h1) (by simp)

theorem recSeasonRowOf_inv (db : Db) (season : Int) (byTeam : String → Int)
    (x : PlayerListRow) (r : RecSeasonRow) (h : recSeasonRowOf db season byTeam x = some r) :
    r.team = x.team ∧ r.targets = x.targets ∧
      r.team_target_share =
        (if byTeam (x.team.getD "") ≠ 0 then
          some (PyFloat.make x.targets (byTeam (x.team.getD ""))) else none) := by
  unfold recSeasonRowOf at h
  simp only [] at h
  split at h
  · obtain rfl := (Option.some.inj h).symm
    exact ⟨rfl, rfl, rfl⟩
  · simp at h

theorem rushSeasonRowOf_inv (db : Db) (season : Int) (byTeam : String → Int)
    (x : PlayerListRow) (r : RushSeasonRow) (h : rushSeasonRowOf db season byTeam x = some r) :
    r.team = x.team ∧ r.rush_attempts = x.rushAttempts ∧
      r.team_rush_share =
        (if byTeam (x.team.getD "") ≠ 0 then
          some (PyFloat.make x.rushAttempts (byTeam (x.team.getD ""))) else none) := by
  unfold rushSeasonRowOf at h
  simp only [] at h
  split at h
  · obtain rfl := (Option.some.inj h).symm
    exact ⟨rfl, rfl, rfl⟩
  · simp at h

theorem byTeamTargets_go (rows : List PlayerListRow) (acc : String → Int) (t : String) :
    (rows.foldl (fun acc r => fun u => if r.team.getD "" = u then acc u + r.targets else acc u)
      acc) t
      = acc t + ((rows.filter fun r => r.team.getD "" == t).map PlayerListRow.targets).sum := by
  induction rows generalizing acc with
  | nil => simp
  | cons r rows ih =>
    simp only [List.foldl_cons, ih, List.filter_cons]
    by_cases hr : r.team.getD "" = t
    · simp only [hr, if_true, beq_self_eq_true, List.map_cons, List.sum_cons]
      omega
    · have : (r.team.getD "" == t) = false := by simpa using hr
      simp [hr, this]

theorem byTeamTargets_eq (rows : List PlayerListRow) (t : String) :
    byTeamTargets rows t
      = ((rows.filter fun r => r.team.getD "" == t).map PlayerListRow.targets).sum := by
  simpa using byTeamTargets_go rows (fun _ => 0) t

theorem byTeamRush_go (rows : List PlayerListRow) (acc : String → Int) (t : String) :
    (rows.foldl (fun acc r => fun u => if r.team.getD "" = u then acc u + r.rushAttempts else acc u)
      acc) t
      = acc t + ((rows.filter fun r => r.team.getD "" == t).map PlayerListRow.rushAttempts).sum := by
  induction rows generalizing acc with
  | nil => simp
  | cons r rows ih =>
    simp only [List.foldl_cons, ih, List.filter_cons]
    by_cases hr : r.team.getD "" = t
    · simp only [hr, if_true, beq_self_eq_true, List.map_cons, List.sum_cons]
      omega
    · have : (r.team.getD "" == t) = false := by simpa using hr
      simp [hr, this]

theorem byTeamRush_eq (rows : List PlayerListRow) (t : String) :
    byTeamRush rows t
      = ((rows.filter fun r => r.team.getD "" == t).map PlayerListRow.rushAttempts).sum := by
  simpa using byTeamRush_go rows (fun _ => 0) t

theorem mergeAllowed_toLower {c : Char} (h : mergeAllowed c = true) : c.toLower = c := by
  simp only [mergeAllowed, Bool.or_eq_true, Bool.and_eq_true, decide_eq_true_eq] at h
  have hn : ¬(c.toNat ≥ 65 ∧ c.toNat ≤ 90) := by
    rcases h with (⟨h1, h2⟩ | ⟨h1, h2⟩) | h1
    · have h97 : (97 : Nat) ≤ c.toNat := by
        simpa [Char.toNat] using (Char.le_def).mp h1
      omega
    · have h57 : c.toNat ≤ 57 := by
        simpa [Char.toNat] using (Char.le_def).mp h2
      omega
    · subst h1
      decide
  unfold Char.toLower
  simp only [ge_iff_le] at hn ⊢
  rw [if_neg hn]

theorem mergeAllowed_space {c : Char} (h1 : mergeAllowed c = true) (h2 : isPySpace c = true) :
    c = ' ' := by
  simp only [isPySpace, Bool.or_eq_true, decide_eq_true_eq] at h2
  rcases h2 with ((((rfl | rfl) | rfl) | rfl) | rfl) | rfl
  · rfl
  all_goals exact absurd h1 (by decide)

theorem head?_dropWhile_not {α : Type} (p : α → Bool) (l : List α) (c : α)
    (h : (l.dropWhile p).head? = some c) : p c = false := by
  induction l with
  | nil => simp at h
  | cons a as ih =>
    by_cases hp : p a
    · simp only [List.dropWhile_cons, hp, if_true] at h
      exact ih h
    · simp only [List.dropWhile_cons, hp, if_false, List.head?_cons] at h
      obtain rfl := Option.some.inj h
      simpa using hp

theorem getLast?_cons_ne {α : Type} (x : α) (l : List α) (h : l ≠ []) :
    (x :: l).getLast? = l.getLast? := by
  have hx : x :: l = [x] ++ l := rfl
  rw [hx, List.getLast?_append]
  cases hy : l.getLast? with
  | some y => rfl
  | none =>
    exact absurd (by simpa using hy) h

theorem getLast?_dropWhile {α : Type} (p : α → Bool) (l : List α)
    (h : l.dropWhile p ≠ []) : (l.dropWhile p).getLast? = l.getLast? := by
  conv_rhs => rw [← List.takeWhile_append_dropWhile p l]
  rw [List.getLast?_append]
  cases hx : (l.dropWhile p).getLast? with
  | some x => rfl
  | none => exact absurd (by simpa using hx) h

theorem pyStripL_head_not (l : List Char) (c : Char)
    (h : (pyStripL l).head? = some c) : isPySpace c = false := by
  unfold pyStripL at h
  rw [List.head?_reverse] at h
  have hne : (l.dropWhile isPySpace).reverse.dropWhile isPySpace ≠ [] := by
    intro he
    rw [he] at h
    simp at h
  rw [getLast?_dropWhile _ _ hne, List.getLast?_reverse] at h
  exact head?_dropWhile_not _ _ _ h

theorem pyStripL_getLast_not (l : List Char) (c : Char)
    (h : (pyStripL l).getLast? = some c) : isPySpace c = false := by
  unfold pyStripL at h
  rw [List.getLast?_reverse] at h
  exact head?_dropWhile_not _ _ _ h

theorem pyStripL_subset (l : List Char) : pyStripL l ⊆ l := by
  intro c hc
  unfold pyStripL at hc
  rw [List.mem_reverse] at hc
  have h1 := (List.dropWhile_sublist isPySpace).subset hc
  rw [List.mem_reverse] at h1
  exact (List.dropWhile_sublist isPySpace).subset h1

theorem dropWhile_eq_self_of_head {α : Type} (p : α → Bool) (l : List α)
    (h : ∀ c, l.head? = some c → p c = false) : l.dropWhile p = l := by
  cases l with
  | nil => rfl
  | cons a as =>
    have := h a rfl
    simp [List.dropWhile_cons, this]

theorem pyStripL_eq_self (l : List Char)
    (h1 : ∀ c, l.head? = some c → isPySpace c = false)
    (h2 : ∀ c, l.getLast? = some c → isPySpace c = false) : pyStripL l = l := by
  unfold pyStripL
  rw [dropWhile_eq_self_of_head _ _ h1]
  rw [dropWhile_eq_self_of_head _ _ fun c hc => h2 c (by rwa [List.head?_reverse] at hc)]
  exact List.reverse_reverse l

theorem collapseGo_cons_ws_true (a : Char) (as : List Char) (h : isPySpace a = true) :
    collapseGo true (a :: as) = collapseGo true as := by
  simp [collapseGo, h]

theorem collapseGo_cons_ws_false (a : Char) (as : List Char) (h : isPySpace a = true) :
    collapseGo false (a :: as) = ' ' :: collapseGo true as := by
  simp [collapseGo, h]

theorem collapseGo_cons_not_ws (b : Bool) (a : Char) (as : List Char) (h : isPySpace a = false) :
    collapseGo b (a :: as) = a :: collapseGo false as := by
  cases b <;> simp [collapseGo, h]

theorem collapseGo_mem (b : Bool) (l : List Char) (c : Char) (h : c ∈ collapseGo b l) :
    c ∈ l ∨ c = ' ' := by
  induction l generalizing b with
  | nil => simp [collapseGo] at h
  | cons a as ih =>
    by_cases hw : isPySpace a
    · cases b with
      | true =>
        rw [collapseGo_cons_ws_true a as hw] at h
        rcases ih true h with h1 | h1
        · exact Or.inl (List.mem_cons_of_mem a h1)
        · exact Or.inr h1
      | false =>
        rw [collapseGo_cons_ws_false a as hw] at h
        rcases List.mem_cons.mp h with rfl | h1
        · exact Or.inr rfl
        · rcases ih true h1 with h2 | h2
          · exact Or.inl (List.mem_cons_of_mem a h2)
          · exact Or.inr h2
    · rw [collapseGo_cons_not_ws b a as (by simpa using hw)] at h
      rcases List.mem_cons.mp h with rfl | h1
      · exact Or.inl (List.mem_cons_self _ _)
      · rcases ih false h1 with h2 | h2
        · exact Or.inl (List.mem_cons_of_mem a h2)
        · exact Or.inr h2

theorem collapseGo_mem_of_not_ws (b : Bool) (l : List Char) (c : Char)
    (hc : c ∈ l) (hw : isPySpace c = false) : c ∈ collapseGo b l := by
  induction l generalizing b with
  | nil => simp at hc
  | cons a as ih =>
    rcases List.mem_cons.mp hc with rfl | h1
    · rw [collapseGo_cons_not_ws b c as hw]
      exact List.mem_cons_self _ _
    · by_cases hwa : isPySpace a
      · cases b with
        | true =>
          rw [collapseGo_cons_ws_true a as hwa]
          exact ih true h1
        | false =>
          rw [collapseGo_cons_ws_false a as hwa]
          exact List.mem_cons_of_mem _ (ih true h1)
      · rw [collapseGo_cons_not_ws b a as (by simpa using hwa)]
        exact List.mem_cons_of_mem _ (ih false h1)

theorem collapseGo_ne_nil (b : Bool) (l : List Char) (c : Char) (hc : c ∈ l)
    (hw : isPySpace c = false) : collapseGo b l ≠ [] := by
  intro he
  have h1 := collapseGo_mem_of_not_ws b l c hc hw
  rw [he] at h1
  simp at h1

theorem collapseGo_true_head (l : List Char) (c : Char)
    (h : (collapseGo true l).head? = some c) : isPySpace c = false := by
  induction l with
  | nil => simp [collapseGo] at h
  | cons a as ih =>
    by_cases hwa : isPySpace a
    · rw [collapseGo_cons_ws_true a as hwa] at h
      exact ih h
    · rw [collapseGo_cons_not_ws true a as (by simpa using hwa), List.head?_cons] at h
      obtain rfl := Option.some.inj h
      simpa using hwa

theorem collapseGo_false_head (l : List Char)
    (hl : ∀ c, l.head? = some c → isPySpace c = false) (c : Char)
    (h : (collapseGo false l).head? = some c) : isPySpace c = false := by
  cases l with
  | nil => simp [collapseGo] at h
  | cons a as =>
    have hwa : isPySpace a = false := hl a rfl
    rw [collapseGo_cons_not_ws false a as hwa, List.head?_cons] at h
    obtain rfl := Option.some.inj h
    exact hwa

theorem collapseGo_getLast (l : List Char) (c : Char)
    (hlast : l.getLast? = some c) (hw : isPySpace c = false) :
    ∀ (b : Bool) (d : Char), (collapseGo b l).getLast? = some d → isPySpace d = false := by
  induction l with
  | nil => simp at hlast
  | cons a as ih =>
    intro b d hd
    cases has : as with
    | nil =>
      subst has
      have hac : a = c := by simpa using hlast
      subst hac
      rw [collapseGo_cons_not_ws b a [] hw] at hd
      have hnil : collapseGo false ([] : List Char) = [] := rfl
      rw [hnil] at hd
      simp at hd
      subst hd
      exact hw
    | cons a2 as2 =>
      subst has
      have hlast2 : (a2 :: as2).getLast? = some c := by
        rw [← hlast]
        rfl
      have hcmem : c ∈ a2 :: as2 := List.mem_of_mem_getLast? hlast2
      have hneT : collapseGo true (a2 :: as2) ≠ [] := collapseGo_ne_nil _ _ c hcmem hw
      have hneF : collapseGo false (a2 :: as2) ≠ [] := collapseGo_ne_nil _ _ c hcmem hw
      by_cases hwa : isPySpace a
      · cases b with
        | true =>
          rw [collapseGo_cons_ws_true a _ hwa] at hd
          exact ih hlast2 true d hd
        | false =>
          rw [collapseGo_cons_ws_false a _ hwa, getLast?_cons_ne _ _ hneT] at hd
          exact ih hlast2 true d hd
      · rw [collapseGo_cons_not_ws b a _ (by simpa using hwa),
          getLast?_cons_ne _ _ hneF] at hd
        exact ih hlast2 false d hd

theorem collapseGo_chain (b : Bool) (l : List Char) :
    List.Chain' (fun a b => ¬(isPySpace a = true ∧ isPySpace b = true)) (collapseGo b l) := by
  induction l generalizing b with
  | nil => simp [collapseGo]
  | cons a as ih =>
    by_cases hwa : isPySpace a
    · cases b with
      | true =>
        rw [collapseGo_cons_ws_true a as hwa]
        exact ih true
      | false =>
        rw [collapseGo_cons_ws_false a as hwa]
        refine List.chain'_cons'.mpr ⟨?_, ih true⟩
        intro y hy hcon
        have hyh : (collapseGo true as).head? = some y := by
          simpa using hy
        exact absurd hcon.2 (by simp [collapseGo_true_head as y hyh])
    · rw [collapseGo_cons_not_ws b a as (by simpa using hwa)]
      refine List.chain'_cons'.mpr ⟨?_, ih false⟩
      intro y hy hcon
      exact absurd hcon.1 (by simp [hwa])

theorem collapseGo_true_eq_false (l : List Char)
    (h : ∀ c, l.head? = some c → isPySpace c = false) :
    collapseGo true l = collapseGo false l := by
  cases l with
  | nil => rfl
  | cons a as =>
    have hwa := h a rfl
    rw [collapseGo_cons_not_ws true a as hwa, collapseGo_cons_not_ws false a as hwa]

theorem collapseGo_false_id (l : List Char)
    (hch : List.Chain' (fun a b => ¬(isPySpace a = true ∧ isPySpace b = true)) l)
    (hsp : ∀ c ∈ l, isPySpace c = true → c = ' ') :
    collapseGo false l = l := by
  induction l with
  | nil => rfl
  | cons a as ih =>
    by_cases hwa : isPySpace a
    · rw [collapseGo_cons_ws_false a as hwa]
      have ha : a = ' ' := hsp a (List.mem_cons_self _ _) hwa
      have hhead : ∀ c, as.head? = some c → isPySpace c = false := by
        intro c hc
        have hr := (List.chain'_cons'.mp hch).1 c (by simpa using hc)
        by_contra hcc
        exact hr ⟨hwa, by simpa using hcc⟩
      rw [collapseGo_true_eq_false as hhead]
      rw [ih (List.chain'_cons'.mp hch).2 fun c hc => hsp c (List.mem_cons_of_mem _ hc)]
      rw [ha]
    · rw [collapseGo_cons_not_ws false a as (by simpa using hwa)]
      rw [ih (List.chain'_cons'.mp hch).2 fun c hc => hsp c (List.mem_cons_of_mem _ hc)]

theorem merge_name_chars (s : String) (c : Char) (h : c ∈ (_merge_name s).toList) :
    mergeAllowed c = true := by
  unfold _merge_name at h
  rw [List.toList_asString] at h
  rcases collapseGo_mem false _ c h with h1 | rfl
  · have h2 := pyStripL_subset _ h1
    exact (List.mem_filter.mp h2).2
  · decide

theorem merge_name_idem (s : String) : _merge_name (_merge_name s) = _merge_name s := by
  have hdef : ∀ t : String,
      _merge_name t
        = (collapseGo false (pyStripL ((t.toList.map Char.toLower).filter mergeAllowed))).asString :=
    fun t => rfl
  have hm : (_merge_name s).toList
      = collapseGo false (pyStripL ((s.toList.map Char.toLower).filter mergeAllowed)) := by
    unfold _merge_name collapseWsL
    rw [List.toList_asString]
  have hallowed : ∀ c ∈ (_merge_name s).toList, mergeAllowed c = true := merge_name_chars s
  have hhead : ∀ c, ((_merge_name s).toList).head? = some c → isPySpace c = false := by
    rw [hm]
    intro c hc
    exact collapseGo_false_head _ (fun d hd => pyStripL_head_not _ d hd) c hc
  have hlastm : ∀ c, ((_merge_name s).toList).getLast? = some c → isPySpace c = false := by
    rw [hm]
    intro c hc
    cases hx : (pyStripL ((s.toList.map Char.toLower).filter mergeAllowed)).getLast? with
    | none =>
      have hnil : pyStripL ((s.toList.map Char.toLower).filter mergeAllowed) = [] := by
        simpa using hx
      rw [hnil] at hc
      simp [collapseGo] at hc
    | some e =>
      have hwe := pyStripL_getLast_not _ e hx
      exact collapseGo_getLast _ e hx hwe false c hc
  have hchain : List.Chain' (fun a b => ¬(isPySpace a = true ∧ isPySpace b = true))
      ((_merge_name s).toList) := by
    rw [hm]
    exact collapseGo_chain false _
  have hsp : ∀ c ∈ (_merge_name s).toList, isPySpace c = true → c = ' ' :=
    fun c hc hw => mergeAllowed_space (hallowed c hc) hw
  rw [hdef (_merge_name s)]
  have h1 : ((_merge_name s).toList).map Char.toLower = (_merge_name s).toList := by
    have h2 := List.map_congr_left (l := (_merge_name s).toList) (f := Char.toLower) (g := id)
      fun c hc => mergeAllowed_toLower (hallowed c hc)
    simpa using h2
  rw [h1]
  rw [List.filter_eq_self.mpr hallowed]
  rw [pyStripL_eq_self _ hhead hlastm]
  rw [collapseGo_false_id _ hchain hsp]
  exact String.asString_toList _

theorem listStatsRows_mem (db : Db) (se : Int) (s : SeasonStatRow)
    (h : s ∈ listStatsRows db se) :
    s ∈ db.seasonStats ∧ _has_any_stats s = true ∧
      s.season = Value.vint se ∧ s.postseason = Value.vbool false := by
  unfold listStatsRows listStatsFetch at h
  have h1 := List.mem_filter.mp h
  have h2 := List.take_subset _ _ h1.1
  have h3 := List.mem_filter.mp h2
  have h4 := h3.2
  simp only [Bool.and_eq_true, beq_iff_eq] at h4
  exact ⟨h3.1, h1.2, h4.1, h4.2⟩

theorem mem_playersListSorted (db : Db) (season : Option Int) (position team : Option String)
    (r : PlayerListRow) (h : r ∈ playersListSorted db season position team) :
    ∃ se, season = some se ∧
      ∃ s, s ∈ listStatsRows db se ∧
        listRowOf db se (asciiUpper (pyStrip (position.getD ""))) (resolveTeamId db team)
          (listPlayerMap db se) (_team_map db (listTeamIds db se)) s = some r := by
  unfold playersListSorted at h
  cases season with
  | none => simp at h
  | some se =>
    simp only [] at h
    split at h
    · simp at h
    · split at h
      · simp at h
      · rw [mem_sortLe] at h
        rcases List.mem_filterMap.mp h with ⟨s, hs, hrow⟩
        exact ⟨se, rfl, s, hs, hrow⟩

theorem mem_get_players_list (db : Db) (season : Option Int) (position team : Option String)
    (limit : Int) (r : PlayerListRow) (h : r ∈ get_players_list db season position team limit) :
    r ∈ playersListSorted db season position team := by
  unfold get_players_list at h
  exact List.take_subset _ _ h

theorem has_any_stats_elim (s : SeasonStatRow) (h : _has_any_stats s = true) :
    0 < pyOrInt (_safe_int s.passing_attempts) 0 ∨
    0 < pyOrInt (_safe_int s.passing_completions) 0 ∨
    0 < pyOrInt (_safe_int s.rushing_attempts) 0 ∨
    0 < pyOrInt (_safe_int s.receptions) 0 ∨
    0 < pyOrInt (_safe_int s.receiving_targets) 0 := by
  have hval : ∀ cell : Value, (match _safe_int cell with
      | some v => decide (v ≠ 0) && decide (0 < v)
      | none => false) = true → 0 < pyOrInt (_safe_int cell) 0 := by
    intro cell hc
    cases hsi : _safe_int cell with
    | none => rw [hsi] at hc; simp at hc
    | some v =>
      rw [hsi] at hc
      simp only [Bool.and_eq_true, decide_eq_true_eq] at hc
      simpa [pyOrInt, hc.1] using hc.2
  simp only [_has_any_stats, List.any_eq_true, List.mem_cons, List.not_mem_nil, or_false] at h
  obtain ⟨x, hx, hpx⟩ := h
  rcases hx with rfl | rfl | rfl | rfl | rfl
  · exact Or.inl (hval _ hpx)
  · exact Or.inr (Or.inl (hval _ hpx))
  · exact Or.inr (Or.inr (Or.inl (hval _ hpx)))
  · exact Or.inr (Or.inr (Or.inr (Or.inl (hval _ hpx))))
  · exact Or.inr (Or.inr (Or.inr (Or.inr (hval _ hpx))))

/-- C9: `_merge_name` is idempotent, and case- and punctuation-insensitive as
on the example of the spec (the name Mike OBrien written with an apostrophe
normalizes like mike obrien). -/
theorem c9_merge_name :
    (∀ s : String, _merge_name (_merge_name s) = _merge_name s) ∧
    _merge_name "Mike O\x27Brien" = _merge_name "mike obrien" ∧
    _merge_name "Mike O\x27Brien" = "mike obrien" :=
  ⟨merge_name_idem, by decide, by decide⟩

/-- C8: `_safe_int`/`_safe_float` send null, the empty string and any value
failing conversion to null, return the parsed value on valid numeric strings
and on numbers, and are total Lean functions (the embedding of "never
raises"). -/
theorem c8_coercion :
    _safe_int Value.vnull = none ∧ _safe_int (Value.vstr "") = none ∧
    _safe_float Value.vnull = none ∧ _safe_float (Value.vstr "") = none ∧
    (∀ n : Int, _safe_int (Value.vint n) = some n) ∧
    (∀ q : PyFloat, _safe_float (Value.vfloat q) = some q) ∧
    (∀ s : String, parseIntStr s = none → _safe_int (Value.vstr s) = none) ∧
    (∀ s : String, ∀ n : Int, parseIntStr s = some n → _safe_int (Value.vstr s) = some n) ∧
    (∀ s : String, parseFloatStr s = none → _safe_float (Value.vstr s) = none) ∧
    (∀ s : String, ∀ q : PyFloat, parseFloatStr s = some q →
      _safe_float (Value.vstr s) = some q) ∧
    _safe_int (Value.vstr "42") = some 42 ∧
    _safe_int (Value.vstr " -7 ") = some (-7) ∧
    _safe_int (Value.vstr "abc") = none ∧
    _safe_int (Value.vstr "3.5") = none ∧
    _safe_float (Value.vstr "3.5") = some ⟨7, 2⟩ ∧
    _safe_float (Value.vstr "-1.5e2") = some ⟨-150, 1⟩ ∧
    _safe_float (Value.vstr "abc") = none := by
  refine ⟨rfl, rfl, rfl, rfl, fun n => rfl, fun q => rfl, ?_, ?_, ?_, ?_,
    by decide, by decide, by decide, by decide, by decide, by decide, by decide⟩
  · intro s hs
    by_cases hse : s = ""
    · subst hse; rfl
    · simp [_safe_int, hse, pyIntOfValue, hs]
  · intro s n hs
    have hse : s ≠ "" := by
      intro he
      subst he
      simp [parseIntStr, pyStripL, digitsToNat] at hs
    simp [_safe_int, hse, pyIntOfValue, hs]
  · intro s hs
    by_cases hse : s = ""
    · subst hse; rfl
    · simp [_safe_float, hse, pyFloatOfValue, hs]
  · intro s q hs
    have hse : s ≠ "" := by
      intro he
      subst he
      simp [parseFloatStr, pyStripL, splitAtExpMark, parseMantissa, digitsToNat] at hs
    simp [_safe_float, hse, pyFloatOfValue, hs]

/-- C8 witness: the conditional clauses of `c8_coercion` applied at the
concrete failing string "xyz" and the concrete parse "12". -/
theorem c8_coercion_witness :
    _safe_int (Value.vstr "xyz") = none ∧ _safe_int (Value.vstr "12") = some 12 := by
  constructor
  · exact c8_coercion.2.2.2.2.2.2.1 "xyz" (by decide)
  · exact c8_coercion.2.2.2.2.2.2.2.1 "12" 12 (by decide)

/-- C6: the player season list is sorted descending by the per-row key
(receiving yards for WR/TE, rushing yards otherwise); on the concrete store
the WR with 120 receiving yards precedes the RB with 80 rushing yards. -/
theorem c6_sort_order :
    (∀ (db : Db) (season : Option Int) (position team : Option String) (limit : Int),
      (get_players_list db season position team limit).Pairwise
        fun a b => listSortKey b ≤ listSortKey a) ∧
    (get_players_list exDb (some 2023) none none 10).map PlayerListRow.player_id
      = ["1", "2", "3"] := by
  constructor
  · intro db season position team limit
    have hsorted : (playersListSorted db season position team).Pairwise
        fun a b => listSortKey b ≤ listSortKey a := by
      unfold playersListSorted
      cases season with
      | none => simp
      | some se =>
        simp only []
        split
        · simp
        · split
          · simp
          · have h := pairwise_sortLe (fun a b => decide (listSortKey b ≤ listSortKey a))
              (fun a b c h1 h2 => by
                simp only [decide_eq_true_eq] at h1 h2 ⊢
                exact le_trans h2 h1)
              (fun a b => by
                simp only [decide_eq_true_eq]
                exact Int.le_total (listSortKey b) (listSortKey a))
              ((listStatsRows db se).filterMap
                (listRowOf db se (asciiUpper (pyStrip (position.getD "")))
                  (resolveTeamId db team) (listPlayerMap db se)
                  (_team_map db (listTeamIds db se))))
            exact h.imp fun hab => by simpa using hab
    exact hsorted.sublist (List.take_sublist _ _)
  · decide

/-- C5: every ranked view is sliced to `min(max(limit, 1), cap)` rows
(cap 300 for the season list, 200 for the dashboards and summaries), and
with limit 0 the season list still returns a row whenever its pre-slice
result is nonempty (the clamp has minimum 1). -/
theorem c5_truncation :
    (∀ (db : Db) (season : Option Int) (position team : Option String) (limit : Int),
      (get_players_list db season position team limit).length ≤ (min (max limit 1) 300).toNat) ∧
    (∀ (db : Db) (season week limit : Int) (team : Option String),
      (receiving_dashboard db season week team limit).length ≤ (min (max limit 1) 200).toNat) ∧
    (∀ (db : Db) (season week limit : Int) (team : Option String),
      (rushing_dashboard db season week team limit).length ≤ (min (max limit 1) 200).toNat) ∧
    (∀ (db : Db) (season limit : Int) (team : Option String),
      (receiving_season db season team limit).length ≤ (min (max limit 1) 200).toNat) ∧
    (∀ (db : Db) (season limit : Int) (team : Option String),
      (rushing_season db season team limit).length ≤ (min (max limit 1) 200).toNat) ∧
    (∀ (db : Db) (season : Option Int) (position team : Option String),
      playersListSorted db season position team ≠ [] →
      1 ≤ (get_players_list db season position team 0).length) := by
  refine ⟨?_, ?_, ?_, ?_, ?_, ?_⟩
  · intro db season position team limit
    unfold get_players_list
    exact List.length_take_le _ _
  · intro db season week limit team
    unfold receiving_dashboard
    refine le_trans (List.length_filterMap_le _ _) ?_
    unfold recvDashTaken
    exact List.length_take_le _ _
  · intro db season week limit team
    unfold rushing_dashboard
    refine le_trans (List.length_filterMap_le _ _) ?_
    unfold rushDashTaken
    exact List.length_take_le _ _
  · intro db season limit team
    unfold receiving_season
    exact List.length_take_le _ _
  · intro db season limit team
    unfold rushing_season
    exact List.length_take_le _ _
  · intro db season position team h
    unfold get_players_list
    rw [List.length_take]
    have h1 : 1 ≤ (playersListSorted db season position team).length :=
      List.length_pos.mpr h
    have h2 : (min (max (0 : Int) 1) 300).toNat = 1 := by decide
    omega

/-- C5 witness: with limit 0 on the concrete store (whose pre-slice season
list is nonempty) the season list still returns a row, and limit 10000 is
clamped to the 300-row cap. -/
theorem c5_truncation_witness :
    1 ≤ (get_players_list exDb (some 2023) none none 0).length ∧
    (get_players_list exDb (some 2023) none none 10000).length ≤ (min (max (10000 : Int) 1) 300).toNat :=
  ⟨c5_truncation.2.2.2.2.2 exDb (some 2023) none none (by decide),
    c5_truncation.1 exDb (some 2023) none none 10000⟩

/-- C4: every season-list row (hence every season-summary row built on it)
derives from a stored regular-season stat row passing `_has_any_stats`, and
carries at least one strictly positive offensive counter among passing
attempts/completions, rush attempts, receptions and targets — so stat rows
whose tracked counters are all 0 are excluded. -/
theorem c4_has_stats (db : Db) (season : Option Int) (position team : Option String)
    (limit : Int) (r : PlayerListRow) (h : r ∈ get_players_list db season position team limit) :
    (0 < r.passingAttempts ∨ 0 < r.passingCompletions ∨ 0 < r.rushAttempts ∨
      0 < r.receptions ∨ 0 < r.targets) ∧
    ∃ se, season = some se ∧
      ∃ s, s ∈ db.seasonStats ∧ _has_any_stats s = true ∧ s.season = Value.vint se ∧
        s.postseason = Value.vbool false ∧
        listRowOf db se (asciiUpper (pyStrip (position.getD ""))) (resolveTeamId db team)
          (listPlayerMap db se) (_team_map db (listTeamIds db se)) s = some r := by
  obtain ⟨se, hse, s, hs, hrow⟩ :=
    mem_playersListSorted db season position team r (mem_get_players_list _ _ _ _ _ _ h)
  obtain ⟨hsdb, hstats, hseason, hpost⟩ := listStatsRows_mem db se s hs
  obtain ⟨pid, p, hpid, hp, hrid, hteam, htar, hrec, hrush, hpa, hpc⟩ :=
    listRowOf_inv db se (asciiUpper (pyStrip (position.getD ""))) (resolveTeamId db team)
      (listPlayerMap db se) (_team_map db (listTeamIds db se)) s r hrow
  constructor
  · rcases has_any_stats_elim s hstats with h1 | h1 | h1 | h1 | h1
    · exact Or.inl (by rw [hpa]; exact h1)
    · exact Or.inr (Or.inl (by rw [hpc]; exact h1))
    · exact Or.inr (Or.inr (Or.inl (by rw [hrush]; exact h1)))
    · exact Or.inr (Or.inr (Or.inr (Or.inl (by rw [hrec]; exact h1))))
    · exact Or.inr (Or.inr (Or.inr (Or.inr (by rw [htar]; exact h1))))
  · exact ⟨se, hse, s, hsdb, hstats, hseason, hpost, hrow⟩

/-- C4 witness: the concrete WR row of the season list, with its positive
targets counter and its generating stat row. -/
theorem c4_has_stats_witness :
    (0 < exListRow1.passingAttempts ∨ 0 < exListRow1.passingCompletions ∨
      0 < exListRow1.rushAttempts ∨ 0 < exListRow1.receptions ∨ 0 < exListRow1.targets) ∧
    ∃ se, (some 2023 : Option Int) = some se ∧
      ∃ s, s ∈ exDb.seasonStats ∧ _has_any_stats s = true ∧ s.season = Value.vint se ∧
        s.postseason = Value.vbool false ∧
        listRowOf exDb se (asciiUpper (pyStrip ((none : Option String).getD "")))
          (resolveTeamId exDb none) (listPlayerMap exDb se)
          (_team_map exDb (listTeamIds exDb se)) s = some exListRow1 :=
  c4_has_stats exDb (some 2023) none none 10 exListRow1 (by decide)

/-- C1 counterexample: in the weekly receiving dashboard a fact row whose
player id resolves nowhere (the players table is empty, so the player map is
empty) is NOT dropped — the dashboard still returns it, with the name
falling back to the id string.  This contradicts the claim that the
player-lookup drop rule holds for the weekly dashboards. -/
theorem c1_player_miss_counterexample :
    exDbNoPlayers.players = [] ∧
    recvDashPlayerMap exDbNoPlayers 2023 5 none 10 = [] ∧
    (receiving_dashboard exDbNoPlayers 2023 5 none 10).length = 1 ∧
    (receiving_dashboard exDbNoPlayers 2023 5 none 10).map DashRecRow.player_name = ["1"] :=
  ⟨rfl, by decide, by decide, by decide⟩

/-- C1 (amended): in the season list (and hence the season summaries built
on it) a row is kept only when its player id resolves in the player map; in
the weekly dashboards exactly the rows whose player id coerces are kept —
a player-map miss retains the row with the name falling back to the id
string — and an unresolved team id yields a null team field with the row
retained. -/
theorem c1_player_miss_amended :
    (∀ (db : Db) (season : Option Int) (position team : Option String) (limit : Int)
      (r : PlayerListRow), r ∈ get_players_list db season position team limit →
      ∃ se pid p, season = some se ∧ dictGet (listPlayerMap db se) pid = some p ∧
        r.player_id = toString pid) ∧
    (∀ (db : Db) (season week limit : Int) (team : Option String),
      (receiving_dashboard db season week team limit).length
        = ((recvDashTaken db season week team limit).filter
            fun s => (_safe_int s.player_id).isSome).length) ∧
    (∀ (db : Db) (season week limit : Int) (team : Option String),
      (rushing_dashboard db season week team limit).length
        = ((rushDashTaken db season week team limit).filter
            fun s => (_safe_int s.player_id).isSome).length) ∧
    (∀ (db : Db) (season week limit : Int) (team : Option String) (r : DashRecRow),
      r ∈ receiving_dashboard db season week team limit →
      ∃ s pid, s ∈ recvDashTaken db season week team limit ∧
        _safe_int s.player_id = some pid ∧ r.player_id = toString pid ∧
        r.team = ((_safe_int s.team_id).bind fun t =>
          dictGet (recvDashTeamMap db season week team limit) t)) := by
  refine ⟨?_, ?_, ?_, ?_⟩
  · intro db season position team limit r h
    obtain ⟨se, hse, s, hs, hrow⟩ :=
      mem_playersListSorted db season position team r (mem_get_players_list _ _ _ _ _ _ h)
    obtain ⟨pid, p, hpid, hp, hrid, _⟩ :=
      listRowOf_inv db se (asciiUpper (pyStrip (position.getD ""))) (resolveTeamId db team)
        (listPlayerMap db se) (_team_map db (listTeamIds db se)) s r hrow
    exact ⟨se, pid, p, hse, hp, hrid⟩
  · intro db season week limit team
    unfold receiving_dashboard
    rw [length_filterMap_eq_filter]
    congr 1
    refine List.filter_congr fun s _ => ?_
    rw [dashRecRowOf_isSome]
  · intro db season week limit team
    unfold rushing_dashboard
    rw [length_filterMap_eq_filter]
    congr 1
    refine List.filter_congr fun s _ => ?_
    rw [dashRushRowOf_isSome]
  · intro db season week limit team r h
    unfold receiving_dashboard at h
    rcases List.mem_filterMap.mp h with ⟨s, hs, hrow⟩
    obtain ⟨pid, hpid, hrid, hteam⟩ := dashRecRowOf_inv _ _ _ _ _ _ _ hrow
    exact ⟨s, pid, hs, hpid, hrid, hteam⟩

/-- C1 witness: the amended season-list clause at the concrete WR row, and
the amended dashboard retention clause at the store without players. -/
theorem c1_player_miss_witness :
    (∃ se pid p, (some 2023 : Option Int) = some se ∧
      dictGet (listPlayerMap exDb se) pid = some p ∧ exListRow1.player_id = toString pid) ∧
    (receiving_dashboard exDbNoPlayers 2023 5 none 10).length
      = ((recvDashTaken exDbNoPlayers 2023 5 none 10).filter
          fun s => (_safe_int s.player_id).isSome).length :=
  ⟨c1_player_miss_amended.1 exDb (some 2023) none none 10 exListRow1 (by decide),
    c1_player_miss_amended.2.1 exDbNoPlayers 2023 5 10 none⟩

/-- C3 counterexample: on the concrete store the result of the receiving
summary contains one KC row (the WR, targets 80) whose share is 80/100 = 4/5
— the 20 targets of the KC quarterback inflate the denominator although the QB
row is excluded from the result — while the sum of targets over all result
rows of team KC is 80, and 80/80 ≠ 4/5.  So the share does not equal the
targets of the player divided by the team total within the returned result set. -/
theorem c3_team_share_counterexample :
    (receiving_season exDb 2023 none 10).map
        (fun r => (r.player_id, r.targets, r.team, r.team_target_share))
      = [("1", 80, some "KC", some ⟨4, 5⟩), ("2", 0, some "SF", none)] ∧
    (((receiving_season exDb 2023 none 10).filter fun r => r.team == some "KC").map
        RecSeasonRow.targets).sum = 80 ∧
    PyFloat.make 80 80 ≠ (⟨4, 5⟩ : PyFloat) :=
  ⟨by decide, by decide, by decide⟩

/-- C3 (amended): the share of every summary row equals its stat divided by
the sum of that stat over all rows of the underlying player season list
(every position, before the position subset and 200-row cap of the summary)
that share the team abbreviation of the row (rows with a null abbreviation pooled
together), and is null when that total is zero; receiving uses targets,
rushing uses rush attempts. -/
theorem c3_team_share_amended :
    (∀ (db : Db) (season limit : Int) (team : Option String) (r : RecSeasonRow),
      r ∈ receiving_season db season team limit →
      r.team_target_share =
        (if (((get_players_list db (some season) none team 8000).filter
              fun x => x.team.getD "" == r.team.getD "").map PlayerListRow.targets).sum = 0
          then none
          else some (PyFloat.make r.targets
            ((((get_players_list db (some season) none team 8000).filter
              fun x => x.team.getD "" == r.team.getD "").map PlayerListRow.targets).sum)))) ∧
    (∀ (db : Db) (season limit : Int) (team : Option String) (r : RushSeasonRow),
      r ∈ rushing_season db season team limit →
      r.team_rush_share =
        (if (((get_players_list db (some season) none team 8000).filter
              fun x => x.team.getD "" == r.team.getD "").map PlayerListRow.rushAttempts).sum = 0
          then none
          else some (PyFloat.make r.rush_attempts
            ((((get_players_list db (some season) none team 8000).filter
              fun x => x.team.getD "" == r.team.getD "").map PlayerListRow.rushAttempts).sum)))) := by
  constructor
  · intro db season limit team r h
    unfold receiving_season at h
    have h2 := List.take_subset _ _ h
    rw [mem_sortLe] at h2
    rcases List.mem_filterMap.mp h2 with ⟨x, hx, hrow⟩
    obtain ⟨hteam, htar, hshare⟩ := recSeasonRowOf_inv _ _ _ _ _ hrow
    rw [hshare, byTeamTargets_eq, hteam, htar]
    by_cases hd : (((get_players_list db (some season) none team 8000).filter
        fun y => y.team.getD "" == x.team.getD "").map PlayerListRow.targets).sum = 0
    · rw [if_neg (by simpa using hd), if_pos hd]
    · rw [if_pos (by simpa using hd), if_neg hd]
  · intro db season limit team r h
    unfold rushing_season at h
    have h2 := List.take_subset _ _ h
    rw [mem_sortLe] at h2
    rcases List.mem_filterMap.mp h2 with ⟨x, hx, hrow⟩
    obtain ⟨hteam, hatt, hshare⟩ := rushSeasonRowOf_inv _ _ _ _ _ hrow
    rw [hshare, byTeamRush_eq, hteam, hatt]
    by_cases hd : (((get_players_list db (some season) none team 8000).filter
        fun y => y.team.getD "" == x.team.getD "").map PlayerListRow.rushAttempts).sum = 0
    · rw [if_neg (by simpa using hd), if_pos hd]
    · rw [if_pos (by simpa using hd), if_neg hd]

/-- C3 witness: the amended receiving clause at the concrete WR summary
row (share 80/100 over the whole underlying list, QB included). -/
theorem c3_team_share_witness :
    exRecSeasonRow1.team_target_share =
      (if (((get_players_list exDb (some 2023) none none 8000).filter
            fun x => x.team.getD "" == exRecSeasonRow1.team.getD "").map
            PlayerListRow.targets).sum = 0
        then none
        else some (PyFloat.make exRecSeasonRow1.targets
          ((((get_players_list exDb (some 2023) none none 8000).filter
            fun x => x.team.getD "" == exRecSeasonRow1.team.getD "").map
            PlayerListRow.targets).sum))) :=
  c3_team_share_amended.1 exDb 2023 10 none exRecSeasonRow1 (by decide)

/-- C7: every returned game-log row comes from a fetched stat row, and when
the team id of that row, its game record and both game team ids resolve,
the location/opponent fields follow the home/visitor comparison: team id
equal to the home id of the game gives location "home" and the mapped
abbreviation of the visitor as opponent, otherwise "away" and the mapped
abbreviation of the home side. -/
theorem c7_home_away (db : Db) (player_id : String) (season : Int)
    (include_postseason : Bool) (r : GameLogRow)
    (h : r ∈ get_player_game_logs db player_id season include_postseason) :
    ∃ pid s, _safe_int (Value.vstr player_id) = some pid ∧
      s ∈ gameLogFetch db pid season include_postseason ∧
      gameLogRowOf season (gameLogGameMap db pid season include_postseason)
        (_team_map db (gameLogTeamIds db pid season include_postseason)) s = some r ∧
      ∀ gid gr tid ht vt,
        _safe_int s.game_id = some gid →
        dictGet (gameLogGameMap db pid season include_postseason) gid = some gr →
        _safe_int s.team_id = some tid →
        _safe_int gr.home_team_id = some ht →
        _safe_int gr.visitor_team_id = some vt →
        ((tid = ht → r.location = "home" ∧
            r.opponent
              = dictGet (_team_map db (gameLogTeamIds db pid season include_postseason)) vt) ∧
          (tid ≠ ht → r.location = "away" ∧
            r.opponent
              = dictGet (_team_map db (gameLogTeamIds db pid season include_postseason)) ht)) := by
  unfold get_player_game_logs at h
  cases hpid : _safe_int (Value.vstr player_id) with
  | none => rw [hpid] at h; simp at h
  | some pid =>
    rw [hpid] at h
    rcases List.mem_filterMap.mp h with ⟨s, hs, hrow⟩
    refine ⟨pid, s, rfl, hs, hrow, ?_⟩
    intro gid gr tid ht vt hgid hg htid hht hvt
    exact gameLogRowOf_resolved season _ _ s r gid tid ht vt gr hgid hg htid hht hvt hrow

/-- C7 witness: the concrete WR game-log row (home game against SF). -/
theorem c7_home_away_witness :
    ∃ pid s, _safe_int (Value.vstr "1") = some pid ∧
      s ∈ gameLogFetch exDb pid 2023 false ∧
      gameLogRowOf 2023 (gameLogGameMap exDb pid 2023 false)
        (_team_map exDb (gameLogTeamIds exDb pid 2023 false)) s = some exLogRow1 ∧
      ∀ gid gr tid ht vt,
        _safe_int s.game_id = some gid →
        dictGet (gameLogGameMap exDb pid 2023 false) gid = some gr →
        _safe_int s.team_id = some tid →
        _safe_int gr.home_team_id = some ht →
        _safe_int gr.visitor_team_id = some vt →
        ((tid = ht → exLogRow1.location = "home" ∧
            exLogRow1.opponent = dictGet (_team_map exDb (gameLogTeamIds exDb pid 2023 false)) vt) ∧
          (tid ≠ ht → exLogRow1.location = "away" ∧
            exLogRow1.opponent
              = dictGet (_team_map exDb (gameLogTeamIds exDb pid 2023 false)) ht)) :=
  c7_home_away exDb "1" 2023 false exLogRow1 (by decide)

/-- C10: in the game log exactly the fetched rows whose game id coerces
produce output rows; a row whose game record, home id, or visitor id fails
to resolve (or whose own team id fails coercion) is retained with location
"home" and a null opponent. -/
theorem c10_game_log_retention (db : Db) (player_id : String) (season : Int)
    (include_postseason : Bool) (pid : Int)
    (hpid : _safe_int (Value.vstr player_id) = some pid) :
    (get_player_game_logs db player_id season include_postseason).length
      = ((gameLogFetch db pid season include_postseason).filter
          fun s => (_safe_int s.game_id).isSome).length ∧
    ∀ s ∈ gameLogFetch db pid season include_postseason, ∀ gid : Int,
      _safe_int s.game_id = some gid →
      (((dictGet (gameLogGameMap db pid season include_postseason) gid).bind
          fun gr => _safe_int gr.home_team_id) = none ∨
        ((dictGet (gameLogGameMap db pid season include_postseason) gid).bind
          fun gr => _safe_int gr.visitor_team_id) = none ∨
        _safe_int s.team_id = none) →
      ∃ r, gameLogRowOf season (gameLogGameMap db pid season include_postseason)
          (_team_map db (gameLogTeamIds db pid season include_postseason)) s = some r ∧
        r ∈ get_player_game_logs db player_id season include_postseason ∧
        r.location = "home" ∧ r.opponent = none := by
  constructor
  · unfold get_player_game_logs
    rw [hpid]
    rw [length_filterMap_eq_filter]
    congr 1
    refine List.filter_congr fun s _ => ?_
    rw [gameLogRowOf_isSome]
  · intro s hs gid hgid hdef
    have hsome : (gameLogRowOf season (gameLogGameMap db pid season include_postseason)
        (_team_map db (gameLogTeamIds db pid season include_postseason)) s).isSome = true := by
      rw [gameLogRowOf_isSome, hgid]
      rfl
    obtain ⟨r, hr⟩ := Option.isSome_iff_exists.mp hsome
    refine ⟨r, hr, ?_, gameLogRowOf_default season _ _ s r gid hgid hdef hr⟩
    unfold get_player_game_logs
    rw [hpid]
    exact List.mem_filterMap.mpr ⟨s, hs, hr⟩

/-- C10 witness: the player-7 log keeps exactly the row with a coercible game
id, and the dangling row is retained with location "home" and no opponent. -/
theorem c10_game_log_retention_witness :
    (get_player_game_logs exDb "7" 2023 false).length
      = ((gameLogFetch exDb 7 2023 false).filter
          fun s => (_safe_int s.game_id).isSome).length ∧
    ∃ r, gameLogRowOf 2023 (gameLogGameMap exDb 7 2023 false)
        (_team_map exDb (gameLogTeamIds exDb 7 2023 false)) exStat7 = some r ∧
      r ∈ get_player_game_logs exDb "7" 2023 false ∧
      r.location = "home" ∧ r.opponent = none := by
  have h := c10_game_log_retention exDb "7" 2023 false 7 (by decide)
  exact ⟨h.1, h.2 exStat7 (by decide) 999 (by decide) (Or.inl (by decide))⟩

theorem value_isInt_elim (v : Value) (h : v.isInt = true) : ∃ n, v = Value.vint n := by
  cases v with
  | vint m => exact ⟨m, rfl⟩
  | vnull => simp [Value.isInt] at h
  | vbool b => simp [Value.isInt] at h
  | vfloat q => simp [Value.isInt] at h
  | vstr s => simp [Value.isInt] at h

theorem resolveTeamId_found (db : Db) (t : String)
    (hInt : ∀ tr ∈ db.teams, tr.id.isInt = true)
    (hEx : ∃ tr ∈ db.teams, tr.abbreviation = Value.vstr t)
    (hNe : t ≠ "") :
    ∃ n tr0, resolveTeamId db (some t) = some n ∧ tr0 ∈ db.teams ∧
      tr0.id = Value.vint n ∧ tr0.abbreviation = Value.vstr t := by
  obtain ⟨tr, htr, habbr⟩ := hEx
  have hmemF : tr ∈ db.teams.filter fun row => row.abbreviation == Value.vstr t :=
    List.mem_filter.mpr ⟨htr, by simp [habbr]⟩
  cases hF : db.teams.filter (fun row => row.abbreviation == Value.vstr t) with
  | nil => rw [hF] at hmemF; simp at hmemF
  | cons tr0 rest =>
    have htr0F : tr0 ∈ db.teams.filter fun row => row.abbreviation == Value.vstr t := by
      rw [hF]
      exact List.mem_cons_self _ _
    have htr0 : tr0 ∈ db.teams := (List.mem_filter.mp htr0F).1
    have habbr0 : tr0.abbreviation = Value.vstr t := by
      have h2 := (List.mem_filter.mp htr0F).2
      simpa using h2
    obtain ⟨n, hn⟩ := value_isInt_elim tr0.id (hInt tr0 htr0)
    refine ⟨n, tr0, ?_, htr0, hn, habbr0⟩
    unfold resolveTeamId
    simp only []
    rw [if_neg hNe, hF, List.take_succ_cons]
    simp only []
    rw [hn]
    rfl

theorem team_map_lookup (db : Db) (ids : List Int) (n : Int) (tr0 : TeamRow)
    (hInt : ∀ tr ∈ db.teams, tr.id.isInt = true)
    (hUniq : (db.teams.map TeamRow.id).Nodup)
    (hids : ids.Nodup) (hmem : n ∈ ids)
    (htr0 : tr0 ∈ db.teams) (hid0 : tr0.id = Value.vint n) :
    dictGet (_team_map db ids) n = some (asciiUpper (textOr tr0.abbreviation)) := by
  have hne : ¬ ids.isEmpty = true := by
    cases ids with
    | nil => simp at hmem
    | cons a as => simp
  unfold _team_map
  rw [if_neg hne]
  have hFsub : (db.teams.filter fun tr => inIntList tr.id ids).Sublist db.teams :=
    List.filter_sublist _
  have hFlen : (db.teams.filter fun tr => inIntList tr.id ids).length ≤ ids.length := by
    have hnodup : ((db.teams.filter fun tr => inIntList tr.id ids).map TeamRow.id).Nodup :=
      List.Nodup.sublist (hFsub.map TeamRow.id) hUniq
    have hsub : ((db.teams.filter fun tr => inIntList tr.id ids).map TeamRow.id)
        ⊆ ids.map Value.vint := by
      intro v hv
      rcases List.mem_map.mp hv with ⟨tr, htrF, rfl⟩
      have hin : inIntList tr.id ids = true := (List.mem_filter.mp htrF).2
      rcases List.any_eq_true.mp hin with ⟨m, hmids, hbeq⟩
      have hev : tr.id = Value.vint m := by simpa using hbeq
      rw [hev]
      exact List.mem_map_of_mem _ hmids
    have hlen := (hnodup.subperm hsub).length_le
    simpa using hlen
  rw [List.take_of_length_le hFlen]
  have htr0F : tr0 ∈ db.teams.filter fun tr => inIntList tr.id ids := by
    refine List.mem_filter.mpr ⟨htr0, ?_⟩
    rw [hid0]
    exact List.any_eq_true.mpr ⟨n, hmem, by simp⟩
  have hpair : (n, asciiUpper (textOr tr0.abbreviation)) ∈
      (db.teams.filter fun tr => inIntList tr.id ids).filterMap
        (fun tr => (pyIntOfValue tr.id).map fun i => (i, asciiUpper (textOr tr.abbreviation))) := by
    refine List.mem_filterMap.mpr ⟨tr0, htr0F, ?_⟩
    rw [hid0]
    rfl
  cases hres : dictGet ((db.teams.filter fun tr => inIntList tr.id ids).filterMap
      (fun tr => (pyIntOfValue tr.id).map fun i => (i, asciiUpper (textOr tr.abbreviation)))) n with
  | none => exact absurd hres (dictGet_ne_none _ _ _ hpair)
  | some v =>
    have hmemp := dictGet_mem _ _ _ hres
    rcases List.mem_filterMap.mp hmemp with ⟨tr, htrF, hg⟩
    have htrdb : tr ∈ db.teams := (List.mem_filter.mp htrF).1
    obtain ⟨m, hm⟩ := value_isInt_elim tr.id (hInt tr htrdb)
    rw [hm] at hg
    simp only [pyIntOfValue, Option.map_some] at hg
    have hpairEq := Option.some.inj hg
    have hmn : m = n := congrArg Prod.fst hpairEq
    have hv : asciiUpper (textOr tr.abbreviation) = v := congrArg Prod.snd hpairEq
    have htreq : tr = tr0 :=
      List.inj_on_of_nodup_map hUniq htrdb htr0 (by rw [hm, hid0, hmn])
    rw [← hv, htreq]

/-- C2: on a store whose team ids are integers and unique, when the supplied
team abbreviation exists in the teams table (as an upper-cased nonempty
string), every row of either weekly dashboard carries exactly that team
abbreviation; and when the fetch matches no stat rows, both dashboards
return the empty sequence. -/
theorem c2_team_filter :
    (∀ (db : Db) (season week limit : Int) (t : String),
      (∀ tr ∈ db.teams, tr.id.isInt = true) →
      (db.teams.map TeamRow.id).Nodup →
      (∃ tr ∈ db.teams, tr.abbreviation = Value.vstr t) →
      asciiUpper t = t →
      t ≠ "" →
      (∀ r ∈ receiving_dashboard db season week (some t) limit, r.team = some t) ∧
      (∀ r ∈ rushing_dashboard db season week (some t) limit, r.team = some t)) ∧
    (∀ (db : Db) (season week limit : Int) (team : Option String),
      dashFetch db season week team = [] →
      receiving_dashboard db season week team limit = [] ∧
      rushing_dashboard db season week team limit = []) := by
  constructor
  · intro db season week limit t hInt hUniq hEx hUp hNe
    obtain ⟨n, tr0, hres, htr0, hid0, habbr0⟩ := resolveTeamId_found db t hInt hEx hNe
    have habbrT : asciiUpper (textOr tr0.abbreviation) = t := by
      rw [habbr0]
      simpa [textOr] using hUp
    have hrowTeam : ∀ s ∈ dashFetch db season week (some t), s.team_id = Value.vint n := by
      intro s hs
      unfold dashFetch at hs
      rw [hres] at hs
      have h2 := List.take_subset _ _ hs
      have h3 := (List.mem_filter.mp h2).2
      simp only [Bool.and_eq_true, beq_iff_eq] at h3
      exact h3.2
    constructor
    · intro r hr
      unfold receiving_dashboard at hr
      rcases List.mem_filterMap.mp hr with ⟨s, hs, hrow⟩
      obtain ⟨pid, hpid, hrid, hteam⟩ := dashRecRowOf_inv _ _ _ _ _ _ _ hrow
      have hsF : s ∈ dashFetch db season week (some t) := by
        unfold recvDashTaken at hs
        have h2 := List.take_subset _ _ hs
        rw [mem_sortLe] at h2
        exact h2
      have hstid : s.team_id = Value.vint n := hrowTeam s hsF
      have hnids : n ∈ uniqSortedAsc ((recvDashTaken db season week (some t) limit).filterMap
          fun r2 => _safe_int r2.team_id) := by
        rw [mem_uniqSortedAsc]
        exact List.mem_filterMap.mpr ⟨s, hs, by rw [hstid]; rfl⟩
      have hlookup := team_map_lookup db
        (uniqSortedAsc ((recvDashTaken db season week (some t) limit).filterMap
          fun r2 => _safe_int r2.team_id)) n tr0 hInt hUniq (nodup_uniqSortedAsc _) hnids htr0 hid0
      rw [hteam, hstid]
      show (Option.bind (_safe_int (Value.vint n)) fun u =>
        dictGet (recvDashTeamMap db season week (some t) limit) u) = some t
      have hsi : _safe_int (Value.vint n) = some n := rfl
      rw [hsi, Option.some_bind]
      unfold recvDashTeamMap
      rw [hlookup, habbrT]
    · intro r hr
      unfold rushing_dashboard at hr
      rcases List.mem_filterMap.mp hr with ⟨s, hs, hrow⟩
      obtain ⟨pid, hpid, hrid, hteam⟩ := dashRushRowOf_inv _ _ _ _ _ _ _ hrow
      have hsF : s ∈ dashFetch db season week (some t) := by
        unfold rushDashTaken at hs
        have h2 := List.take_subset _ _ hs
        rw [mem_sortLe] at h2
        exact h2
      have hstid : s.team_id = Value.vint n := hrowTeam s hsF
      have hnids : n ∈ uniqSortedAsc ((rushDashTaken db season week (some t) limit).filterMap
          fun r2 => _safe_int r2.team_id) := by
        rw [mem_uniqSortedAsc]
        exact List.mem_filterMap.mpr ⟨s, hs, by rw [hstid]; rfl⟩
      have hlookup := team_map_lookup db
        (uniqSortedAsc ((rushDashTaken db season week (some t) limit).filterMap
          fun r2 => _safe_int r2.team_id)) n tr0 hInt hUniq (nodup_uniqSortedAsc _) hnids htr0 hid0
      rw [hteam, hstid]
      show (Option.bind (_safe_int (Value.vint n)) fun u =>
        dictGet (rushDashTeamMap db season week (some t) limit) u) = some t
      have hsi : _safe_int (Value.vint n) = some n := rfl
      rw [hsi, Option.some_bind]
      unfold rushDashTeamMap
      rw [hlookup, habbrT]
  · intro db season week limit team hfetch
    constructor
    · unfold receiving_dashboard recvDashTaken
      rw [hfetch]
      simp [sortLe]
    · unfold rushing_dashboard rushDashTaken
      rw [hfetch]
      simp [sortLe]

/-- C2 witness: on the concrete store the week-5 receiving dashboard for
team "KC" contains the WR row, whose team field is "KC"; and a fetch with
no matching rows (season 2024) yields the empty dashboards. -/
theorem c2_team_filter_witness :
    exDashRow1.team = some "KC" ∧
    receiving_dashboard exDb 2024 1 none 5 = [] := by
  constructor
  · exact (c2_team_filter.1 exDb 2023 5 10 "KC" (by decide) (by decide) (by decide)
      (by decide) (by decide)).1 exDashRow1 (by decide)
  · exact (c2_team_filter.2 exDb 2024 1 5 none (by decide)).1
